import Mathlib

/-!
# psostats server: quest-run ingestion

A shallow embedding of the ingestion path of the psostats server
(`server/internal/server/server.go`, `server/internal/server/write_game.go`,
`server/internal/db/db.go`) together with the properties established about it.

Conventions of the embedding:

* a `time.Time` is an `Int`, the number of nanoseconds since the Unix epoch; the
  timestamps of a quest run are decoded from JSON (years 0 to 9999), so adding
  thirty seconds never leaves the representable range;
* a `time.Duration` is an `Int`, a number of nanoseconds;
* a Go string is a `String`;
* a DynamoDB table is the list of its items, `PutItem` replacing the item
  that has the same primary key;
* a storage call that can fail takes its outcome from a `Faults` record.
-/

namespace PsoStats

/-! ## Data model (`pkg/model`) -/

/-- Modelled from the spec: the element type of `QuestRun.AllPlayers` is
declared in `pkg/model`, which is not part of the sources at hand. The
ingestion code reads its `GuildCard` and `Class` fields and compares two
elements with `!=`. -/
structure PlayerInfo where
  GuildCard : String
  Class : String
deriving DecidableEq, Repr

/-- Modelled from the spec: `model.QuestRun` is declared in `pkg/model`, which
is not part of the sources at hand. The fields are the ones the ingestion code
reads or writes; the per-tick time series only pass through the payload codec
and are left out. -/
structure QuestRun where
  Id : String
  UserName : String
  GuildCard : String
  PlayerName : String
  AllPlayers : List PlayerInfo
  Server : String
  Difficulty : String
  Episode : Nat
  QuestName : String
  QuestComplete : Bool
  QuestStartTime : Int
  QuestEndTime : Int
  QuestDuration : String
  IllegalShifta : Bool
  PbCategory : Bool
deriving DecidableEq, Repr

/-- The zero value of `model.QuestRun`, which is what `make` fills a slice with.
The zero `time.Time` is January 1 of year 1, 62135596800 seconds before the
Unix epoch. -/
def QuestRun.zero : QuestRun :=
  { Id := "", UserName := "", GuildCard := "", PlayerName := "", AllPlayers := [],
    Server := "", Difficulty := "", Episode := 0, QuestName := "",
    QuestComplete := false, QuestStartTime := -62135596800000000000,
    QuestEndTime := -62135596800000000000,
    QuestDuration := "", IllegalShifta := false, PbCategory := false }

/-! ## `time` -/

/-- The constant `time.Second`, in nanoseconds. -/
def Second : Int := 1000000000

/-- The method `Time.Add`. -/
def timeAdd (t d : Int) : Int := t + d

/-- The method `Time.After`: `t` is after `u`. -/
def timeAfter (t u : Int) : Bool := decide (u < t)

/-- The method `Time.Before`: `t` is before `u`. -/
def timeBefore (t u : Int) : Bool := decide (t < u)

/-! ## `gamesMatch` (server.go) -/

/-- The loop `for i := range a.AllPlayers` of `gamesMatch`, which runs once the
two lengths are known to be equal: the first differing index answers `false`. -/
def allPlayersMatch : List PlayerInfo → List PlayerInfo → Bool
  | x :: xs, y :: ys => if x != y then false else allPlayersMatch xs ys
  | _, _ => true

/-- The function `gamesMatch` of server.go, guard by guard. -/
def gamesMatch (a b : QuestRun) : Bool :=
  if a.QuestName != b.QuestName then false
  else if a.Difficulty != b.Difficulty then false
  else if a.Episode != b.Episode then false
  else if a.Server != b.Server then false
  else if a.GuildCard == b.GuildCard then false
  else if timeAfter (timeAdd a.QuestStartTime (Second * -30)) b.QuestStartTime &&
      timeBefore (timeAdd a.QuestStartTime (Second * 30)) b.QuestStartTime then false
  else if timeAfter (timeAdd a.QuestEndTime (Second * -30)) b.QuestEndTime &&
      timeBefore (timeAdd a.QuestEndTime (Second * 30)) b.QuestEndTime then false
  else if a.AllPlayers.length != b.AllPlayers.length then false
  else allPlayersMatch a.AllPlayers b.AllPlayers

/-! ## Storage model (DynamoDB as used by db.go) -/

/-- The struct `model.Game` as it is stored: one item of a table. An attribute
that the writer deletes from the marshalled map before `PutItem` is `none`;
`Month` is the attribute `writeRecentGame` adds to the map. The two display
fields `FormattedDate` and `FormattedTime` are never set on the write path and
are deleted by every writer, so they are left out. -/
structure Game where
  Id : String
  Player : String
  Players : List (String × String)
  Category : String
  Quest : String
  QuestAndCategory : Option String
  Time : Int
  Timestamp : Int
  Episode : Int
  GameGzip : Option (List Nat)
  Month : Option String
deriving DecidableEq, Repr

/-- The tables db.go writes to, each as the list of its items, the single
counter item of `games_counter`, and the log of the calls made to
`AttachGameToId`. -/
structure Db where
  gameCount : Int
  gamesById : List Game
  recentGamesByMonth : List Game
  gamesByQuest : List Game
  questRecords : List Game
  recentGamesByPlayer : List Game
  playerPb : List Game
  attached : List (QuestRun × String)
deriving DecidableEq, Repr

/-- Which storage calls of one request fail (`true`: the call returns an
error and leaves its table as it was). A failing `dynamodbattribute.MarshalMap`
has the same effect as a failing `PutItem` of the same writer and shares its
flag. -/
structure Faults where
  incrementGameId : Bool
  putGameById : Bool
  putRecentGame : Bool
  getQuestRecord : Bool
  putQuestRecord : Bool
  putGameByQuest : Bool
  getPlayerPb : Bool
  putPlayerPb : Bool
  putGameByPlayer : Bool
  attachGame : Bool
deriving DecidableEq, Repr

/-- No storage call fails. -/
def noFaults : Faults :=
  { incrementGameId := false, putGameById := false, putRecentGame := false,
    getQuestRecord := false, putQuestRecord := false, putGameByQuest := false,
    getPlayerPb := false, putPlayerPb := false, putGameByPlayer := false,
    attachGame := false }

/-- The library functions and external collaborators the ingestion path calls,
and the key schemas the sources do not show. -/
structure Env where
  /-- The function `time.ParseDuration`; `none` is its error. -/
  parseDuration : String → Option Int
  /-- The function `base64.StdEncoding.DecodeString`; `none` is its error. -/
  decodeBase64 : String → Option String
  /-- The call `userDb.GetUser`: the stored password of a user; `none` is its error. -/
  getUser : String → Option String
  /-- The function `DoPasswordsMatch` (stored password, candidate). -/
  doPasswordsMatch : String → String → Bool
  /-- The function `json.Marshal` on a quest run; `none` is its error. -/
  jsonMarshal : QuestRun → Option (List Nat)
  /-- The gzip writer: the bytes in the buffer after `Write` and `Flush`;
  `none` is an error of either. -/
  gzipFlush : List Nat → Option (List Nat)
  /-- The expression `t.UTC().Format("01/2006")`. -/
  monthOf : Int → String
  /-- Primary key of `games_by_quest`. -/
  gamesByQuestKey : Game → List String
  /-- Primary key of `recent_games_by_player`. -/
  recentGamesByPlayerKey : Game → List String
  /-- Primary key of `recent_games_by_month`. -/
  recentGamesByMonthKey : Game → List String

/-- The call `PutItem`: the new item replaces the item with the same primary key. -/
def putItem (key : Game → List String) (item : Game) (table : List Game) : List Game :=
  item :: table.filter (fun r => key r != key item)

/-- Primary key of `games_by_id`: the attribute `Id` (see `GetGame`). -/
def gamesByIdKey (g : Game) : List String := [g.Id]

/-- Primary key of `quest_records`: the attributes `Quest` and `Category`, the
two attributes of the key condition of `GetQuestRecord`. -/
def questRecordsKey (g : Game) : List String := [g.Quest, g.Category]

/-- Primary key of `player_pb`: the attributes `Player` and `QuestAndCategory`,
the two attributes of the key condition of `GetPlayerPB`. -/
def playerPbKey (g : Game) : List String := [g.Player, g.QuestAndCategory.getD ""]

/-! ## db.go -/

/-- The function `getCategoryString` of db.go. -/
def getCategoryString (numPlayers : Int) (pbCategory : Bool) : String :=
  let category := toString numPlayers
  if pbCategory then category ++ "p" else category ++ "n"

/-- The function `getCategoryFromQuest` of db.go. -/
def getCategoryFromQuest (questRun : QuestRun) : String :=
  getCategoryString questRun.AllPlayers.length questRun.PbCategory

/-- The function `incrementAndGetGameId` of db.go: `UpdateItem` adds one to the
counter and returns the new value, which `strconv.Atoi` reads back as a 64-bit
integer. `none` is the error. -/
def incrementAndGetGameId (f : Faults) (db : Db) : Db × Option Int :=
  if f.incrementGameId then (db, none)
  else
    let count := db.gameCount + 1
    let db1 := { db with gameCount := count }
    if count < -(2 ^ 63) ∨ 2 ^ 63 ≤ count then (db1, none) else (db1, some count)

/-- The function `compressGame` of db.go. -/
def compressGame (env : Env) (questRun : QuestRun) : Option (List Nat) :=
  match env.jsonMarshal questRun with
  | none => none
  | some jsonQuestBytes => env.gzipFlush jsonQuestBytes

/-- The map `players` built in `WriteGameById`: GuildCard to class, a later
participant replacing an earlier one with the same GuildCard. -/
def playersMap (allPlayers : List PlayerInfo) : List (String × String) :=
  allPlayers.foldl
    (fun m player => (player.GuildCard, player.Class) :: m.filter (fun e => e.1 != player.GuildCard))
    []

/-- The function `writeRecentGame` of db.go; the `Bool` is `err != nil`. -/
def writeRecentGame (env : Env) (f : Faults) (game : Game) (db : Db) : Db × Bool :=
  let month := env.monthOf game.Timestamp
  let item := { game with GameGzip := none, QuestAndCategory := none, Month := some month }
  if f.putRecentGame then (db, true)
  else
    ({ db with recentGamesByMonth := putItem env.recentGamesByMonthKey item db.recentGamesByMonth },
      false)

/-- The function `WriteGameById` of db.go: the game id and `err != nil`. -/
def WriteGameById (env : Env) (f : Faults) (questRun : QuestRun) (db : Db) :
    Db × String × Bool :=
  match incrementAndGetGameId f db with
  | (db1, none) => (db1, "", true)
  | (db1, some gameId) =>
    match compressGame env questRun with
    | none => (db1, "", true)
    | some gameGzip =>
      let category := getCategoryFromQuest questRun
      match env.parseDuration questRun.QuestDuration with
      | none => (db1, "", true)
      | some duration =>
        let game : Game :=
          { Id := toString gameId, Player := questRun.GuildCard,
            Players := playersMap questRun.AllPlayers, Category := category,
            Quest := questRun.QuestName, QuestAndCategory := some "", Time := duration,
            Timestamp := questRun.QuestStartTime, Episode := questRun.Episode,
            GameGzip := some gameGzip, Month := none }
        if f.putGameById then (db1, "", true)
        else
          let db2 :=
            { db1 with
              gamesById := putItem gamesByIdKey { game with QuestAndCategory := none }
                db1.gamesById }
          let r := writeRecentGame env f game db2
          (r.1, game.Id, r.2)

/-- The function `summaryFromQuestRun` of db.go; a duration that does not
parse is logged and the summary carries the zero duration. -/
def summaryFromQuestRun (env : Env) (questRun : QuestRun) : Game :=
  let category := getCategoryFromQuest questRun
  let duration := (env.parseDuration questRun.QuestDuration).getD 0
  let questAndCategory := questRun.QuestName ++ "+" ++ category
  { Id := questRun.Id, Player := questRun.GuildCard, Players := [], Category := category,
    Quest := questRun.QuestName, QuestAndCategory := some questAndCategory,
    Time := duration, Timestamp := questRun.QuestStartTime, Episode := questRun.Episode,
    GameGzip := none, Month := none }

/-- The function `WriteGameByQuest` of db.go. -/
def WriteGameByQuest (env : Env) (f : Faults) (questRun : QuestRun) (db : Db) : Db × Bool :=
  let gameSummary := summaryFromQuestRun env questRun
  if f.putGameByQuest then (db, true)
  else
    ({ db with
        gamesByQuest := putItem env.gamesByQuestKey { gameSummary with GameGzip := none }
          db.gamesByQuest }, false)

/-- The function `WriteGameByQuestRecord` of db.go. -/
def WriteGameByQuestRecord (env : Env) (f : Faults) (questRun : QuestRun) (db : Db) :
    Db × Bool :=
  let gameSummary := summaryFromQuestRun env questRun
  if f.putQuestRecord then (db, true)
  else
    ({ db with
        questRecords := putItem questRecordsKey { gameSummary with GameGzip := none }
          db.questRecords }, false)

/-- The function `GetQuestRecord` of db.go: the first item of the query on
`Quest` and `Category`, `none` when there is none; the `Bool` is `err != nil`. -/
def GetQuestRecord (f : Faults) (quest : String) (numPlayers : Int) (pbCategory : Bool)
    (db : Db) : Option Game × Bool :=
  let category := getCategoryString numPlayers pbCategory
  if f.getQuestRecord then (none, true)
  else (db.questRecords.find? (fun g => g.Quest == quest && g.Category == category), false)

/-- The function `GetPlayerPB` of db.go. -/
def GetPlayerPB (f : Faults) (quest player : String) (numPlayers : Int) (pbCategory : Bool)
    (db : Db) : Option Game × Bool :=
  let category := getCategoryString numPlayers pbCategory
  let questAndCategory := quest ++ "+" ++ category
  if f.getPlayerPb then (none, true)
  else
    (db.playerPb.find?
      (fun g => g.Player == player && g.QuestAndCategory == some questAndCategory), false)

/-- The function `WritePlayerPb` of db.go. -/
def WritePlayerPb (env : Env) (f : Faults) (questRun : QuestRun) (db : Db) : Db × Bool :=
  let gameSummary := summaryFromQuestRun env questRun
  if f.putPlayerPb then (db, true)
  else
    ({ db with
        playerPb := putItem playerPbKey { gameSummary with GameGzip := none } db.playerPb },
      false)

/-- The function `WriteGameByPlayer` of db.go. -/
def WriteGameByPlayer (env : Env) (f : Faults) (questRun : QuestRun) (db : Db) : Db × Bool :=
  let gameSummary := summaryFromQuestRun env questRun
  if f.putGameByPlayer then (db, true)
  else
    ({ db with
        recentGamesByPlayer :=
          putItem env.recentGamesByPlayerKey { gameSummary with GameGzip := none }
            db.recentGamesByPlayer }, false)

/-- Modelled from the spec: `db.AttachGameToId` is called by write_game.go and
is not defined in the db.go at hand. The spec says of it only that the
submission is linked to the existing game id; the call is recorded with its
two arguments, and touches no other table. -/
def AttachGameToId (f : Faults) (questRun : QuestRun) (id : String) (db : Db) : Db × Bool :=
  if f.attachGame then (db, true)
  else ({ db with attached := (questRun, id) :: db.attached }, false)

/-! ## The server (server.go) -/

/-- The fields of `Server` that the ingestion path reads and writes: the
recent-submission window. The counter is a Go `int`; it would take `2 ^ 63`
recorded submissions to overflow it and it is unbounded here. -/
structure Server where
  recentGames : List QuestRun
  recentGamesCount : Nat
  recentGamesSize : Nat
deriving DecidableEq, Repr

/-- The constructor `New`: a window of `cacheSize = 500` zero-valued slots. -/
def New : Server :=
  let cacheSize := 500
  { recentGames := List.replicate cacheSize QuestRun.zero,
    recentGamesCount := 0,
    recentGamesSize := cacheSize }

/-- One incoming request: the value of the `Authorization` header and what
`c.BodyParser` makes of the body (`none` is its error). -/
structure Request where
  authorization : String
  body : Option QuestRun
deriving DecidableEq, Repr

/-- What a handler leaves behind: the server and the tables, the status it
set on the response (200 unless set), the body it appended, whether it
returned a non-nil error, and whether it ended in a run-time panic instead of
returning. What the client receives for it is given by `answer`. -/
structure Result where
  server : Server
  db : Db
  status : Nat
  body : String
  err : Bool
  panicked : Bool
deriving DecidableEq, Repr

/-- The function `strings.HasPrefix`. -/
def HasPrefix (s p : String) : Bool := p.toList.isPrefixOf s.toList

/-- The function `strings.TrimPrefix`. -/
def TrimPrefix (s p : String) : String :=
  if HasPrefix s p then String.mk (s.toList.drop p.length) else s

/-- The call `strings.SplitN(s, sep, 2)` for a one-character separator: the
text before the first separator and the text after it, or `s` alone when it
holds no separator. -/
def SplitN2 (s : String) (sep : Char) : List String :=
  match s.toList.span (fun c => c != sep) with
  | (before, _ :: after) => [String.mk before, String.mk after]
  | (before, []) => [String.mk before]

/-- The three ways `getUserFromBasicAuth` can end. -/
inductive AuthResult where
  | ok (user pass : String)
  | error
  | panic
deriving DecidableEq, Repr

/-- The method `getUserFromBasicAuth` of server.go. Indexing `authSplit[1]`
on a one-element slice is a run-time panic. -/
def getUserFromBasicAuth (env : Env) (headerString : String) : AuthResult :=
  if headerString.length > 0 && HasPrefix headerString "Basic " then
    let authBase64 := TrimPrefix headerString "Basic "
    match env.decodeBase64 authBase64 with
    | none => AuthResult.error
    | some auth =>
      match SplitN2 auth ':' with
      | [user, pass] => AuthResult.ok user pass
      | _ => AuthResult.panic
  else AuthResult.error

/-- The function `isLeaderboardCandidate` of server.go. -/
def isLeaderboardCandidate (questRun : QuestRun) : Bool :=
  let allowedDifficulty := questRun.Difficulty == "Ultimate" || HasPrefix questRun.QuestName "Stage"
  allowedDifficulty && questRun.QuestComplete && !questRun.IllegalShifta

/-- The two statements
`s.recentGames[s.recentGamesCount%s.recentGamesSize] = questRun` and
`s.recentGamesCount++`. `none` is the run-time panic of a zero divisor or of
an index outside the slice. -/
def recordRecentGame (s : Server) (questRun : QuestRun) : Option Server :=
  if s.recentGamesSize = 0 then none
  else
    let slot := s.recentGamesCount % s.recentGamesSize
    if slot < s.recentGames.length then
      some { s with
        recentGames := s.recentGames.set slot questRun,
        recentGamesCount := s.recentGamesCount + 1 }
    else none

/-- The quest-record step shared by both versions of `PostGame`: read the
record of the run's quest and category and write the run over it when there is
none or when the stored time is greater. Every error is only logged. -/
def updateQuestRecord (env : Env) (f : Faults) (questRun : QuestRun) (questDuration : Int)
    (db : Db) : Db :=
  let numPlayers := questRun.AllPlayers.length
  match GetQuestRecord f questRun.QuestName numPlayers questRun.PbCategory db with
  | (_, true) => db
  | (none, false) => (WriteGameByQuestRecord env f questRun db).1
  | (some topRun, false) =>
    if topRun.Time > questDuration then (WriteGameByQuestRecord env f questRun db).1 else db

/-- The personal-best step shared by both versions of `PostGame`. -/
def updatePlayerPb (env : Env) (f : Faults) (questRun : QuestRun) (user : String)
    (questDuration : Int) (db : Db) : Db :=
  let numPlayers := questRun.AllPlayers.length
  match GetPlayerPB f questRun.QuestName user numPlayers questRun.PbCategory db with
  | (_, true) => db
  | (none, false) => (WritePlayerPb env f questRun db).1
  | (some playerPb, false) =>
    if playerPb.Time > questDuration then (WritePlayerPb env f questRun db).1 else db

/-- A handler that returns after setting `status`, with or without an error. -/
def reply (s : Server) (db : Db) (status : Nat) (err : Bool) : Result :=
  { server := s, db := db, status := status, body := "", err := err, panicked := false }

/-- A handler that ends in a run-time panic. -/
def panicking (s : Server) (db : Db) : Result :=
  { server := s, db := db, status := 200, body := "", err := false, panicked := true }

/-- The assignment `questRun.GuildCard = user` of server.go. -/
def QuestRun.withGuildCard (questRun : QuestRun) (user : String) : QuestRun :=
  { questRun with GuildCard := user }

/-- The assignment `questRun.UserName = user` of write_game.go. -/
def QuestRun.withUserName (questRun : QuestRun) (user : String) : QuestRun :=
  { questRun with UserName := user }

/-- The assignment `questRun.Id = gameId`. -/
def QuestRun.withId (questRun : QuestRun) (gameId : String) : QuestRun :=
  { questRun with Id := gameId }

namespace ServerGo

/-- Lines 362 to 390 of server.go: the leaderboard block and the by-player
write, whose errors are only logged. -/
def writeProjections (env : Env) (f : Faults) (questRun : QuestRun) (user : String)
    (questDuration : Int) (db : Db) : Db :=
  let db1 :=
    if isLeaderboardCandidate questRun then
      let db2 := updateQuestRecord env f questRun questDuration db
      let db3 := (WriteGameByQuest env f questRun db2).1
      updatePlayerPb env f questRun user questDuration db3
    else db
  (WriteGameByPlayer env f questRun db1).1

/-- Lines 345 to 395 of server.go: what `PostGame` does with the body of an
authenticated request once its duration has parsed. The scan of the window in
this version only logs the matches and has no other effect. -/
def ingest (env : Env) (f : Faults) (s : Server) (db : Db) (user : String) (body : QuestRun)
    (questDuration : Int) : Result :=
  let questRun := body.withGuildCard user
  match WriteGameById env f questRun db with
  | (db1, _, true) => reply s db1 500 true
  | (db1, gameId, false) =>
    let questRun := questRun.withId gameId
    match recordRecentGame s questRun with
    | none => panicking s db1
    | some s1 =>
      { server := s1, db := writeProjections env f questRun user questDuration db1,
        status := 200, body := gameId, err := false, panicked := false }

/-- The handler `PostGame` of server.go. -/
def PostGame (env : Env) (f : Faults) (s : Server) (db : Db) (req : Request) : Result :=
  match getUserFromBasicAuth env req.authorization with
  | AuthResult.panic => panicking s db
  | AuthResult.error => reply s db 401 false
  | AuthResult.ok user pass =>
    match env.getUser user with
    | none => reply s db 401 false
    | some password =>
      if !env.doPasswordsMatch password pass then reply s db 401 false
      else
        match req.body with
        | none => reply s db 400 true
        | some body =>
          match env.parseDuration body.QuestDuration with
          | none => reply s db 400 true
          | some questDuration => ingest env f s db user body questDuration

end ServerGo

namespace WriteGameGo

/-- Lines 65 to 95 of write_game.go: the leaderboard block, in which the
quest-record step runs only when no matching game was found (`unmatched`), and
the by-player write. -/
def writeProjections (env : Env) (f : Faults) (questRun : QuestRun) (user : String)
    (questDuration : Int) (unmatched : Bool) (db : Db) : Db :=
  let db1 :=
    if isLeaderboardCandidate questRun then
      let db2 := if unmatched then updateQuestRecord env f questRun questDuration db else db
      let db3 := (WriteGameByQuest env f questRun db2).1
      updatePlayerPb env f questRun user questDuration db3
    else db
  (WriteGameByPlayer env f questRun db1).1

/-- Lines 37 to 100 of write_game.go: what `PostGame` does with the body of an
authenticated request once its duration has parsed. -/
def ingest (env : Env) (f : Faults) (s : Server) (db : Db) (user : String) (body : QuestRun)
    (questDuration : Int) : Result :=
  let questRun := body.withUserName user
  match WriteGameById env f questRun db with
  | (db1, _, true) => reply s db1 500 true
  | (db1, gameId, false) =>
    let questRun := questRun.withId gameId
    match s.recentGames.find? (fun recentGame => gamesMatch recentGame questRun) with
    | some matchingGame =>
      let db2 := (AttachGameToId f questRun matchingGame.Id db1).1
      { server := s, db := writeProjections env f questRun user questDuration false db2,
        status := 200, body := gameId, err := false, panicked := false }
    | none =>
      match recordRecentGame s questRun with
      | none => panicking s db1
      | some s1 =>
        { server := s1, db := writeProjections env f questRun user questDuration true db1,
          status := 200, body := gameId, err := false, panicked := false }

/-- The handler `PostGame` of write_game.go. -/
def PostGame (env : Env) (f : Faults) (s : Server) (db : Db) (req : Request) : Result :=
  match getUserFromBasicAuth env req.authorization with
  | AuthResult.panic => panicking s db
  | AuthResult.error => reply s db 401 false
  | AuthResult.ok user pass =>
    match env.getUser user with
    | none => reply s db 401 false
    | some password =>
      if !env.doPasswordsMatch password pass then reply s db 401 false
      else
        match req.body with
        | none => reply s db 400 true
        | some body =>
          match env.parseDuration body.QuestDuration with
          | none => reply s db 400 true
          | some questDuration => ingest env f s db user body questDuration

end WriteGameGo

/-- A sequence of requests handled one after another by `PostGame` of
server.go, each with its own storage faults. -/
def runServerGo (env : Env) : Server × Db → List (Faults × Request) → Server × Db
  | st, [] => st
  | st, (f, req) :: rest =>
    let r := ServerGo.PostGame env f st.1 st.2 req
    runServerGo env (r.server, r.db) rest

/-- The window after the quest runs of a list have been recorded in turn;
`none` if one of the writes panics. -/
def recordAll : Server → List QuestRun → Option Server
  | s, [] => some s
  | s, q :: qs =>
    match recordRecentGame s q with
    | none => none
    | some s1 => recordAll s1 qs

/-- The empty database: no item in any table, the counter at zero. -/
def Db.empty : Db :=
  { gameCount := 0, gamesById := [], recentGamesByMonth := [], gamesByQuest := [],
    questRecords := [], recentGamesByPlayer := [], playerPb := [], attached := [] }

/-- The item of `quest_records` for a quest and category, as `GetQuestRecord`
reads it without a fault. -/
def questRecordOf (db : Db) (quest category : String) : Option Game :=
  db.questRecords.find? (fun g => g.Quest == quest && g.Category == category)

/-- The request passes the three credential checks of `PostGame` as `user`
and its body parses to `body`. -/
def authenticates (env : Env) (req : Request) (user : String) (body : QuestRun) : Bool :=
  match getUserFromBasicAuth env req.authorization with
  | AuthResult.ok u pass =>
    match env.getUser u with
    | some password => u == user && env.doPasswordsMatch password pass && req.body == some body
    | none => false
  | _ => false

/-- The handler ran to its end: it answered 200 and did not panic. -/
def Result.completed (r : Result) : Bool := r.status == 200 && !r.panicked

/-- What the client receives: a status and a body, `none` standing for the text
of the error the handler returned. -/
structure Response where
  status : Nat
  body : Option String
deriving DecidableEq, Repr

/-- How the app answers once the handler is done. `New` builds the app with an
empty `fiber.Config`, so the error handler is Fiber's default one: when the
handler returns a non-nil error that is not a `*fiber.Error`, as are the errors
of `time.ParseDuration`, of `db.WriteGameById` and of a body that fails to
decode, the status the handler had set is replaced by 500 and the body by the
text of the error. A handler that returns nil is answered with the status it
set and the body it appended. A handler that panics sends no response. -/
def answer (r : Result) : Option Response :=
  if r.panicked then none
  else if r.err then some { status := 500, body := none }
  else some { status := r.status, body := some r.body }

/-- The submission a call of `PostGame` of server.go has to record: when the
handler runs to its end, the body of the request with the authenticated user
as GuildCard and the id of the response as Id; nothing otherwise. -/
def submissionServerGo (env : Env) (f : Faults) (s : Server) (db : Db) (req : Request) :
    Option QuestRun :=
  if (ServerGo.PostGame env f s db req).completed then
    match getUserFromBasicAuth env req.authorization, req.body with
    | AuthResult.ok user _, some body =>
      some ((body.withGuildCard user).withId (ServerGo.PostGame env f s db req).body)
    | _, _ => none
  else none

/-- The submissions to record along a sequence of calls of `PostGame` of
server.go, oldest first. -/
def submissionsServerGo (env : Env) : Server × Db → List (Faults × Request) → List QuestRun
  | _, [] => []
  | st, (f, req) :: rest =>
    let r := ServerGo.PostGame env f st.1 st.2 req
    (submissionServerGo env f st.1 st.2 req).toList ++
      submissionsServerGo env (r.server, r.db) rest

/-! ### Sample environment -/

/-- An excerpt of `time.ParseDuration`: its value on the strings `"1m20s"`
and `"1m30s"`; every other string of the examples is one it rejects. -/
def sampleParseDuration : String → Option Int
  | "1m20s" => some (80 * Second)
  | "1m30s" => some (90 * Second)
  | _ => none

/-- An excerpt of base64 decoding: the two headers of the examples. -/
def sampleDecodeBase64 : String → Option String
  | "YWxpY2U6c2VjcmV0" => some "alice:secret"
  | "Ym9iOmh1bnRlcjI=" => some "bob:hunter2"
  | _ => none

/-- A user store with two users, passwords kept in clear, and stand-ins for
the codec and the key schemas. -/
def sampleEnv : Env :=
  { parseDuration := sampleParseDuration,
    decodeBase64 := sampleDecodeBase64,
    getUser := fun user =>
      if user == "alice" then some "secret"
      else if user == "bob" then some "hunter2" else none,
    doPasswordsMatch := fun password pass => password == pass,
    jsonMarshal := fun questRun => some (questRun.QuestName.toList.map Char.toNat),
    gzipFlush := fun bytes => some (31 :: 139 :: bytes),
    monthOf := fun _ => "01/1970",
    gamesByQuestKey := fun g => [g.Quest, g.Category, g.Id],
    recentGamesByPlayerKey := fun g => [g.Player, g.Id],
    recentGamesByMonthKey := fun g => [g.Month.getD "", g.Id] }

/-! ### Sample quest runs -/

/-- A two-player Ultimate run as reported by the first participant. -/
def sampleRunA : QuestRun :=
  { Id := "1", UserName := "alice", GuildCard := "42000001", PlayerName := "Alice",
    AllPlayers := [⟨"42000001", "HUmar"⟩, ⟨"42000002", "FOnewearl"⟩],
    Server := "ephinea", Difficulty := "Ultimate", Episode := 1,
    QuestName := "Towards the Future", QuestComplete := true,
    QuestStartTime := 1000 * Second, QuestEndTime := 1090 * Second,
    QuestDuration := "1m30s", IllegalShifta := false, PbCategory := false }

/-- The same session as reported by the second participant, with both
timestamps `skew` nanoseconds later and the duration string `d`. -/
def sampleRunB (skew : Int) (d : String) : QuestRun :=
  { sampleRunA with
    Id := "2", UserName := "bob", GuildCard := "42000002", PlayerName := "Bob",
    QuestStartTime := 1000 * Second + skew, QuestEndTime := 1090 * Second + skew,
    QuestDuration := d }

/-- The request of the first participant: user `alice`, reporting `sampleRunA`. -/
def sampleRequestA : Request :=
  { authorization := "Basic YWxpY2U6c2VjcmV0", body := some sampleRunA }

/-- The request of the second participant: user `bob`, reporting the same
session `skew` nanoseconds later with the duration string `d`. -/
def sampleRequestB (skew : Int) (d : String) : Request :=
  { authorization := "Basic Ym9iOmh1bnRlcjI=", body := some (sampleRunB skew d) }

/-- The request of user `alice` with a duration string that does not parse. -/
def sampleRequestBad : Request :=
  { authorization := "Basic YWxpY2U6c2VjcmV0",
    body := some { sampleRunA with QuestDuration := "not-a-duration" } }

/-- The outcome of `PostGame` of server.go on `bob`'s request with `1m20s`,
from a fresh server and empty tables: `bob` holds the record of the quest. -/
def sampleRecordSet : Result :=
  ServerGo.PostGame sampleEnv noFaults New Db.empty (sampleRequestB 0 "1m20s")

/-- The outcome of `PostGame` of write_game.go on `alice`'s request with
`1m30s`, from a fresh server and empty tables. -/
def sampleFirstReport : Result :=
  WriteGameGo.PostGame sampleEnv noFaults New Db.empty sampleRequestA

/-- The outcome of `PostGame` of write_game.go on `bob`'s request with `1m20s`,
five seconds after `alice`'s. -/
def sampleSecondReport : Result :=
  WriteGameGo.PostGame sampleEnv noFaults sampleFirstReport.server sampleFirstReport.db
    (sampleRequestB (5 * Second) "1m20s")

/-- The report of the second participant with the start timestamp 31 seconds
after the first participant's and the same end timestamp. -/
def sampleRunLate : QuestRun :=
  { sampleRunB 0 "1m30s" with QuestStartTime := 1000 * Second + 31 * Second }

/-- The decimal representation of a natural number, most significant digit
first: the characters of its base-ten digits, and the single digit `0` for
zero. -/
def decimal (n : Nat) : String :=
  if n = 0 then "0" else String.mk ((Nat.digits 10 n).reverse.map Nat.digitChar)

/-- A report with empty quest name, difficulty and server, episode 0 and no
participants, carrying a GuildCard and a duration. -/
def sampleRunEmpty : QuestRun :=
  { QuestRun.zero with GuildCard := "42000001", QuestDuration := "1m20s" }

/-- The request of user `alice` reporting `sampleRunEmpty`. -/
def sampleRequestEmpty : Request :=
  { authorization := "Basic YWxpY2U6c2VjcmV0", body := some sampleRunEmpty }

/-- The sample environment with one more excerpt of base64 decoding:
`bm9jb2xvbg==` is the encoding of `nocolon`. -/
def sampleEnvNoColon : Env :=
  { sampleEnv with
    decodeBase64 := fun s => if s == "bm9jb2xvbg==" then some "nocolon" else sampleDecodeBase64 s }

/-- A request whose credentials decode to a string without a colon. -/
def sampleRequestNoColon : Request :=
  { authorization := "Basic bm9jb2xvbg==", body := some sampleRunA }

/-! ## Properties of `gamesMatch` -/

/-- Neither time-window guard of `gamesMatch` can fire: no instant is both
more than thirty seconds after and more than thirty seconds before another. -/
theorem window_guard_false (t u : Int) :
    (timeAfter (timeAdd t (Second * -30)) u && timeBefore (timeAdd t (Second * 30)) u)
      = false := by
  simp only [timeAfter, timeBefore, timeAdd, Second, Bool.and_eq_false_iff,
    decide_eq_false_iff_not]
  omega

/-- The index loop answers `true` exactly on equal lists, when the lengths agree. -/
theorem allPlayersMatch_iff (xs ys : List PlayerInfo) (h : xs.length = ys.length) :
    allPlayersMatch xs ys = true ↔ xs = ys := by
  induction xs generalizing ys with
  | nil =>
    cases ys with
    | nil => simp [allPlayersMatch]
    | cons y ys => simp at h
  | cons x xs ih =>
    cases ys with
    | nil => simp at h
    | cons y ys =>
      have hl : xs.length = ys.length := by simpa using h
      by_cases hxy : x = y
      · simp [allPlayersMatch, hxy, ih ys hl]
      · simp [allPlayersMatch, hxy]

/-- What `gamesMatch` computes: the five field tests and the participant
lists, and nothing about the timestamps. -/
theorem gamesMatch_iff (a b : QuestRun) :
    gamesMatch a b = true ↔
      a.QuestName = b.QuestName ∧ a.Difficulty = b.Difficulty ∧ a.Episode = b.Episode ∧
      a.Server = b.Server ∧ a.GuildCard ≠ b.GuildCard ∧ a.AllPlayers = b.AllPlayers := by
  unfold gamesMatch
  rw [window_guard_false, window_guard_false]
  by_cases h1 : a.QuestName = b.QuestName
  · by_cases h2 : a.Difficulty = b.Difficulty
    · by_cases h3 : a.Episode = b.Episode
      · by_cases h4 : a.Server = b.Server
        · by_cases h5 : a.GuildCard = b.GuildCard
          · simp [h1, h2, h3, h4, h5]
          · by_cases h6 : a.AllPlayers.length = b.AllPlayers.length
            · simp [h1, h2, h3, h4, h5, h6, allPlayersMatch_iff _ _ h6]
            · have h7 : a.AllPlayers ≠ b.AllPlayers := fun h => h6 (by rw [h])
              simp [h1, h2, h3, h4, h5, h6, h7]
        · simp [h1, h2, h3, h4]
      · simp [h1, h2, h3]
    · simp [h1, h2]
  · simp [h1]

/-- C1: `gamesMatch` is meant to answer `false` for two reports whose start
timestamps are more than thirty seconds apart. On the code it answers `true`:
the two sample reports agree on every other condition, their start timestamps
are 31 seconds apart and their end timestamps are equal. -/
theorem C1_gamesMatch_31s_apart_still_matches :
    sampleRunLate.QuestStartTime - sampleRunA.QuestStartTime = 31 * Second ∧
    sampleRunLate.QuestEndTime - sampleRunA.QuestEndTime = 0 ∧
    gamesMatch sampleRunA sampleRunLate = true := by
  decide

/-- C2: two quest runs with equal quest name, difficulty, episode and server,
different GuildCard, equal participant lists and start and end timestamps each
at most thirty seconds apart are matched by `gamesMatch`. -/
theorem C2_gamesMatch_within_window (a b : QuestRun)
    (hq : a.QuestName = b.QuestName) (hd : a.Difficulty = b.Difficulty)
    (he : a.Episode = b.Episode) (hs : a.Server = b.Server)
    (hg : a.GuildCard ≠ b.GuildCard)
    (hlen : a.AllPlayers.length = b.AllPlayers.length)
    (hp : ∀ i : Nat, a.AllPlayers[i]? = b.AllPlayers[i]?)
    (_hstart : |a.QuestStartTime - b.QuestStartTime| ≤ 30 * Second)
    (_hend : |a.QuestEndTime - b.QuestEndTime| ≤ 30 * Second) :
    gamesMatch a b = true := by
  have _ := hlen
  exact (gamesMatch_iff a b).2 ⟨hq, hd, he, hs, hg, List.ext_getElem? hp⟩

/-- Witness for C2: the two sample reports exactly thirty seconds apart. -/
theorem C2_gamesMatch_within_window_witness :
    gamesMatch sampleRunA (sampleRunB (30 * Second) "1m30s") = true :=
  C2_gamesMatch_within_window sampleRunA (sampleRunB (30 * Second) "1m30s")
    (by decide) (by decide) (by decide) (by decide) (by decide) (by decide)
    (by
      intro i
      rfl)
    (by decide) (by decide)

/-- C3: when `gamesMatch a b` answers `true`, the two runs have the same quest
name, difficulty, episode and server, different GuildCards, and participant
lists of the same length that agree at every index; and no run matches itself. -/
theorem C3_gamesMatch_sound (a b : QuestRun) (h : gamesMatch a b = true) :
    (a.QuestName = b.QuestName ∧ a.Difficulty = b.Difficulty ∧ a.Episode = b.Episode ∧
      a.Server = b.Server ∧ a.GuildCard ≠ b.GuildCard ∧
      a.AllPlayers.length = b.AllPlayers.length ∧
      ∀ i : Nat, a.AllPlayers[i]? = b.AllPlayers[i]?) ∧
    ∀ c : QuestRun, gamesMatch c c = false := by
  obtain ⟨h1, h2, h3, h4, h5, h6⟩ := (gamesMatch_iff a b).1 h
  refine ⟨⟨h1, h2, h3, h4, h5, by rw [h6], fun i => by rw [h6]⟩, ?_⟩
  intro c
  cases hc : gamesMatch c c with
  | false => rfl
  | true => exact absurd rfl ((gamesMatch_iff c c).1 hc).2.2.2.2.1

/-- Witness for C3: the two sample reports, five seconds apart. -/
theorem C3_gamesMatch_sound_witness :
    (sampleRunA.QuestName = (sampleRunB (5 * Second) "1m20s").QuestName ∧
      sampleRunA.Difficulty = (sampleRunB (5 * Second) "1m20s").Difficulty ∧
      sampleRunA.Episode = (sampleRunB (5 * Second) "1m20s").Episode ∧
      sampleRunA.Server = (sampleRunB (5 * Second) "1m20s").Server ∧
      sampleRunA.GuildCard ≠ (sampleRunB (5 * Second) "1m20s").GuildCard ∧
      sampleRunA.AllPlayers.length = (sampleRunB (5 * Second) "1m20s").AllPlayers.length ∧
      ∀ i : Nat, sampleRunA.AllPlayers[i]? = (sampleRunB (5 * Second) "1m20s").AllPlayers[i]?) ∧
    ∀ c : QuestRun, gamesMatch c c = false :=
  C3_gamesMatch_sound sampleRunA (sampleRunB (5 * Second) "1m20s") (by decide)

/-! ## Storage and handler lemmas -/

/-- The tables other than the counter are untouched by `incrementAndGetGameId`. -/
theorem incrementAndGetGameId_fst (f : Faults) (db : Db) :
    (incrementAndGetGameId f db).1 =
      if f.incrementGameId then db else { db with gameCount := db.gameCount + 1 } := by
  unfold incrementAndGetGameId
  dsimp only
  split_ifs <;> rfl

/-- A game id is handed out only after the counter has been incremented. -/
theorem incrementAndGetGameId_some (f : Faults) (db db1 : Db) (gameId : Int)
    (h : incrementAndGetGameId f db = (db1, some gameId)) :
    f.incrementGameId = false ∧ gameId = db.gameCount + 1 ∧
      db1 = { db with gameCount := db.gameCount + 1 } := by
  unfold incrementAndGetGameId at h
  dsimp only at h
  split_ifs at h with h1 h2
  · simp at h
  · simp at h
  · simp only [Prod.mk.injEq, Option.some.injEq] at h
    exact ⟨by simpa using h1, h.2.symm, h.1.symm⟩

/-- The tables `WriteGameById` never writes. -/
theorem WriteGameById_frame (env : Env) (f : Faults) (q : QuestRun) (db : Db) :
    (WriteGameById env f q db).1.gamesByQuest = db.gamesByQuest ∧
    (WriteGameById env f q db).1.questRecords = db.questRecords ∧
    (WriteGameById env f q db).1.recentGamesByPlayer = db.recentGamesByPlayer ∧
    (WriteGameById env f q db).1.playerPb = db.playerPb ∧
    (WriteGameById env f q db).1.attached = db.attached := by
  have hfst := incrementAndGetGameId_fst f db
  unfold WriteGameById writeRecentGame
  rcases hinc : incrementAndGetGameId f db with ⟨db1, _ | gameId⟩ <;>
    rw [hinc] at hfst <;> simp only at hfst ⊢
  · subst hfst
    split_ifs <;> simp
  · subst hfst
    split
    · split_ifs <;> simp
    · split
      · split_ifs <;> simp
      · split_ifs <;> simp

/-- The two ways `WriteGameById` can end: an error before anything was put, or
the canonical row put under the freshly minted id, followed by the by-month
write whose outcome is the returned error. -/
theorem WriteGameById_spec (env : Env) (f : Faults) (q : QuestRun) (db : Db) :
    ((WriteGameById env f q db).2.2 = true ∧
      (WriteGameById env f q db).1.gamesById = db.gamesById ∧
      (WriteGameById env f q db).1.recentGamesByMonth = db.recentGamesByMonth) ∨
    (f.incrementGameId = false ∧ f.putGameById = false ∧
      (WriteGameById env f q db).1.gameCount = db.gameCount + 1 ∧
      (WriteGameById env f q db).2.1 = toString (db.gameCount + 1) ∧
      (WriteGameById env f q db).2.2 = f.putRecentGame ∧
      (∃ game : Game, game.Id = toString (db.gameCount + 1) ∧
        game.GameGzip = compressGame env q ∧
        (WriteGameById env f q db).1.gamesById = putItem gamesByIdKey game db.gamesById) ∧
      (f.putRecentGame = true →
        (WriteGameById env f q db).1.recentGamesByMonth = db.recentGamesByMonth)) := by
  have hfst := incrementAndGetGameId_fst f db
  unfold WriteGameById writeRecentGame
  rcases hinc : incrementAndGetGameId f db with ⟨db1, _ | gameId⟩
  · rw [hinc] at hfst
    simp only at hfst ⊢
    subst hfst
    left
    split_ifs <;> simp
  · obtain ⟨h1, h2, h3⟩ := incrementAndGetGameId_some f db db1 gameId hinc
    subst h2 h3
    simp only
    split
    · left; simp
    · rename_i gz hgz
      split
      · left; simp
      · by_cases hp : f.putGameById = true
        · left; simp [hp]
        · right
          simp only [Bool.not_eq_true] at hp
          by_cases hm : f.putRecentGame = true
          · simp only [hp, hm, h1]
            simp only [Bool.false_eq_true, ↓reduceIte, true_and, implies_true, and_true]
            exact ⟨_, rfl, hgz.symm, rfl⟩
          · simp only [Bool.not_eq_true] at hm
            simp only [hp, hm, h1]
            simp only [Bool.false_eq_true, ↓reduceIte, true_and, false_implies, and_true]
            exact ⟨_, rfl, hgz.symm, rfl⟩

/-- What `authenticates` asks of a request. -/
theorem authenticates_iff (env : Env) (req : Request) (user : String) (body : QuestRun) :
    authenticates env req user body = true ↔
      ∃ pass password, getUserFromBasicAuth env req.authorization = AuthResult.ok user pass ∧
        env.getUser user = some password ∧ env.doPasswordsMatch password pass = true ∧
        req.body = some body := by
  unfold authenticates
  constructor
  · intro h
    split at h
    · rename_i u pass hu
      split at h
      · rename_i password hp
        simp only [Bool.and_eq_true, beq_iff_eq] at h
        obtain ⟨⟨h1, h2⟩, h3⟩ := h
        subst h1
        exact ⟨pass, password, hu, hp, h2, h3⟩
      · simp at h
    · simp at h
  · rintro ⟨pass, password, h1, h2, h3, h4⟩
    simp [h1, h2, h3, h4]


/-- After the credential checks `PostGame` of server.go parses the duration and
ingests the body. -/
theorem ServerGo_PostGame_of_authenticates (env : Env) (f : Faults) (s : Server) (db : Db)
    (req : Request) (user : String) (body : QuestRun)
    (ha : authenticates env req user body = true) :
    ServerGo.PostGame env f s db req =
      match env.parseDuration body.QuestDuration with
      | none => reply s db 400 true
      | some questDuration => ServerGo.ingest env f s db user body questDuration := by
  obtain ⟨pass, password, h1, h2, h3, h4⟩ := (authenticates_iff env req user body).1 ha
  unfold ServerGo.PostGame
  simp only [h1, h2, h3, h4, Bool.not_true, Bool.false_eq_true, if_false]

/-- A call of `PostGame` of server.go either leaves the server and the tables as
they were, or ingests the body of an authenticated request. -/
theorem ServerGo_PostGame_cases (env : Env) (f : Faults) (s : Server) (db : Db) (req : Request) :
    ((ServerGo.PostGame env f s db req).server = s ∧ (ServerGo.PostGame env f s db req).db = db ∧
      (ServerGo.PostGame env f s db req).status ≠ 500 ∧
      (ServerGo.PostGame env f s db req).completed = false) ∨
    ∃ user body d, authenticates env req user body = true ∧
      env.parseDuration body.QuestDuration = some d ∧
      ServerGo.PostGame env f s db req = ServerGo.ingest env f s db user body d := by
  unfold ServerGo.PostGame
  split
  · left; simp [panicking, Result.completed]
  · left; simp [reply, Result.completed]
  · rename_i user pass hauth
    split
    · left; simp [reply, Result.completed]
    · rename_i password hpw
      split
      · left; simp [reply, Result.completed]
      · rename_i hmatch
        split
        · left; simp [reply, Result.completed]
        · rename_i body hbody
          split
          · left; simp [reply, Result.completed]
          · rename_i d hd
            right
            refine ⟨user, body, d, ?_, hd, rfl⟩
            rw [authenticates_iff]
            exact ⟨pass, password, hauth, hpw, by simpa using hmatch, hbody⟩

/-- After the credential checks `PostGame` of write_game.go parses the duration
and ingests the body. -/
theorem WriteGameGo_PostGame_of_authenticates (env : Env) (f : Faults) (s : Server) (db : Db)
    (req : Request) (user : String) (body : QuestRun)
    (ha : authenticates env req user body = true) :
    WriteGameGo.PostGame env f s db req =
      match env.parseDuration body.QuestDuration with
      | none => reply s db 400 true
      | some questDuration => WriteGameGo.ingest env f s db user body questDuration := by
  obtain ⟨pass, password, h1, h2, h3, h4⟩ := (authenticates_iff env req user body).1 ha
  unfold WriteGameGo.PostGame
  simp only [h1, h2, h3, h4, Bool.not_true, Bool.false_eq_true, if_false]

/-- The only table `WriteGameByQuest` writes is `games_by_quest`. -/
theorem WriteGameByQuest_fst (env : Env) (f : Faults) (q : QuestRun) (db : Db) :
    (WriteGameByQuest env f q db).1 =
      { db with gamesByQuest :=
          if f.putGameByQuest then db.gamesByQuest
          else putItem env.gamesByQuestKey (summaryFromQuestRun env q) db.gamesByQuest } := by
  unfold WriteGameByQuest
  dsimp only
  split_ifs <;> rfl

/-- The only table `WriteGameByPlayer` writes is `recent_games_by_player`. -/
theorem WriteGameByPlayer_fst (env : Env) (f : Faults) (q : QuestRun) (db : Db) :
    (WriteGameByPlayer env f q db).1 =
      { db with recentGamesByPlayer :=
          if f.putGameByPlayer then db.recentGamesByPlayer
          else (putItem env.recentGamesByPlayerKey (summaryFromQuestRun env q)
            db.recentGamesByPlayer) } := by
  unfold WriteGameByPlayer
  dsimp only
  split_ifs <;> rfl

/-- The only table the personal-best step writes is `player_pb`. -/
theorem updatePlayerPb_eq (env : Env) (f : Faults) (q : QuestRun) (user : String) (d : Int)
    (db : Db) : ∃ t, updatePlayerPb env f q user d db = { db with playerPb := t } := by
  unfold updatePlayerPb WritePlayerPb
  dsimp only
  split
  · exact ⟨_, rfl⟩
  · split_ifs <;> exact ⟨_, rfl⟩
  · split_ifs <;> exact ⟨_, rfl⟩

/-- The quest-record step in closed form: the only table it writes is
`quest_records`, and it writes the summary of the run when there is no record
or when the stored time is greater. -/
theorem updateQuestRecord_eq (env : Env) (f : Faults) (q : QuestRun) (d : Int) (db : Db) :
    updateQuestRecord env f q d db =
      { db with questRecords :=
          if f.getQuestRecord = true ∨ f.putQuestRecord = true then db.questRecords
          else
            match questRecordOf db q.QuestName (getCategoryFromQuest q) with
            | none => putItem questRecordsKey (summaryFromQuestRun env q) db.questRecords
            | some topRun =>
              if topRun.Time > d then
                putItem questRecordsKey (summaryFromQuestRun env q) db.questRecords
              else db.questRecords } := by
  unfold updateQuestRecord GetQuestRecord WriteGameByQuestRecord questRecordOf getCategoryFromQuest
  dsimp only
  generalize List.find? _ db.questRecords = top
  cases hg : f.getQuestRecord <;> cases hp : f.putQuestRecord <;>
    simp only [Bool.false_eq_true, if_false, if_true, or_self, or_true, true_or] <;>
    cases top <;> simp only [] <;> (try split_ifs) <;> rfl

/-- Dropping items that fail `q` does not change the first item satisfying a
stronger test. -/
theorem find?_filter_of_imp {α : Type} (p q : α → Bool) (l : List α)
    (h : ∀ x, p x = true → q x = true) : (l.filter q).find? p = l.find? p := by
  induction l with
  | nil => rfl
  | cons x xs ih =>
    by_cases hq : q x = true
    · rw [List.filter_cons_of_pos hq]
      simp only [List.find?_cons, ih]
    · have hp : p x = false := by
        cases hpx : p x with
        | false => rfl
        | true => exact absurd (h x hpx) hq
      rw [List.filter_cons_of_neg hq, List.find?_cons, hp, ih]

/-- Reading `quest_records` after a put: the new item under its own key, the
old answer under every other key. -/
theorem find?_putItem_questRecords (item : Game) (t : List Game) (quest category : String) :
    (putItem questRecordsKey item t).find? (fun g => g.Quest == quest && g.Category == category) =
      if item.Quest = quest ∧ item.Category = category then some item
      else t.find? (fun g => g.Quest == quest && g.Category == category) := by
  unfold putItem
  rw [List.find?_cons]
  by_cases h : item.Quest = quest ∧ item.Category = category
  · simp [h]
  · have hf : (item.Quest == quest && item.Category == category) = false := by
      simpa using h
    rw [hf, if_neg h]
    apply find?_filter_of_imp
    intro x hx
    simp only [Bool.and_eq_true, beq_iff_eq] at hx
    simp only [questRecordsKey, bne_iff_ne, ne_eq, List.cons.injEq, and_true, not_and]
    intro hq hc
    exact h ⟨hq ▸ hx.1, hc ▸ hx.2⟩

/-- The table `quest_records` after an ingestion by server.go is as before, or
has the summary of the new run put over a missing or slower record. -/
theorem ServerGo_ingest_questRecords (env : Env) (f : Faults) (s : Server) (db : Db)
    (user : String) (body : QuestRun) (d : Int) :
    (ServerGo.ingest env f s db user body d).db.questRecords = db.questRecords ∨
    ∃ gameId : String,
      isLeaderboardCandidate ((body.withGuildCard user).withId gameId) = true ∧
      (questRecordOf db body.QuestName (getCategoryFromQuest body) = none ∨
        ∃ g, questRecordOf db body.QuestName (getCategoryFromQuest body) = some g ∧ d < g.Time) ∧
      (ServerGo.ingest env f s db user body d).db.questRecords =
        putItem questRecordsKey (summaryFromQuestRun env ((body.withGuildCard user).withId gameId))
          db.questRecords := by
  obtain ⟨-, hfr, -, -, -⟩ := WriteGameById_frame env f (body.withGuildCard user) db
  unfold ServerGo.ingest
  dsimp only
  rcases hw : WriteGameById env f (body.withGuildCard user) db with ⟨db1, gameId, err⟩
  rw [hw] at hfr
  simp only at hfr
  cases err
  · simp only
    cases hrec : recordRecentGame s ((body.withGuildCard user).withId gameId) with
    | none => left; simpa [panicking] using hfr
    | some s1 =>
      simp only
      unfold ServerGo.writeProjections
      simp only [WriteGameByPlayer_fst]
      by_cases hc : isLeaderboardCandidate ((body.withGuildCard user).withId gameId) = true
      · simp only [hc, if_true]
        obtain ⟨t, ht⟩ := updatePlayerPb_eq env f ((body.withGuildCard user).withId gameId) user d
          (WriteGameByQuest env f ((body.withGuildCard user).withId gameId)
            (updateQuestRecord env f ((body.withGuildCard user).withId gameId) d db1)).1
        rw [ht, WriteGameByQuest_fst, updateQuestRecord_eq]
        simp only
        have hq : questRecordOf db1 ((body.withGuildCard user).withId gameId).QuestName
            (getCategoryFromQuest ((body.withGuildCard user).withId gameId)) =
            questRecordOf db body.QuestName (getCategoryFromQuest body) := by
          unfold questRecordOf
          rw [hfr]
          rfl
        rw [hq, hfr]
        by_cases hflt : f.getQuestRecord = true ∨ f.putQuestRecord = true
        · left; rw [if_pos hflt]
        · rw [if_neg hflt]
          cases hrecd : questRecordOf db body.QuestName (getCategoryFromQuest body) with
          | none =>
            right
            exact ⟨gameId, hc, Or.inl rfl, rfl⟩
          | some g =>
            simp only
            by_cases hlt : g.Time > d
            · right
              rw [if_pos hlt]
              exact ⟨gameId, hc, Or.inr ⟨g, rfl, hlt⟩, rfl⟩
            · left
              rw [if_neg hlt]
      · left
        simp only [hc]
        simpa using hfr
  · left
    simpa [reply] using hfr

/-- The three ways an ingestion by server.go can end. -/
theorem ServerGo_ingest_cases (env : Env) (f : Faults) (s : Server) (db : Db)
    (user : String) (body : QuestRun) (d : Int) :
    ((WriteGameById env f (body.withGuildCard user) db).2.2 = true ∧
      ServerGo.ingest env f s db user body d =
        reply s (WriteGameById env f (body.withGuildCard user) db).1 500 true) ∨
    ((WriteGameById env f (body.withGuildCard user) db).2.2 = false ∧
      recordRecentGame s ((body.withGuildCard user).withId
        (WriteGameById env f (body.withGuildCard user) db).2.1) = none ∧
      ServerGo.ingest env f s db user body d =
        panicking s (WriteGameById env f (body.withGuildCard user) db).1) ∨
    ((WriteGameById env f (body.withGuildCard user) db).2.2 = false ∧
      ∃ s1, recordRecentGame s ((body.withGuildCard user).withId
          (WriteGameById env f (body.withGuildCard user) db).2.1) = some s1 ∧
        ServerGo.ingest env f s db user body d =
          { server := s1,
            db := ServerGo.writeProjections env f ((body.withGuildCard user).withId
              (WriteGameById env f (body.withGuildCard user) db).2.1) user d
              (WriteGameById env f (body.withGuildCard user) db).1,
            status := 200,
            body := (WriteGameById env f (body.withGuildCard user) db).2.1,
            err := false, panicked := false }) := by
  unfold ServerGo.ingest
  dsimp only
  rcases WriteGameById env f (body.withGuildCard user) db with ⟨db1, gameId, err⟩
  cases err
  · right
    simp only
    cases hrec : recordRecentGame s ((body.withGuildCard user).withId gameId) with
    | none => left; simp [hrec]
    | some s1 => right; simp [hrec]
  · left
    simp

/-- An eligible run is put in `games_by_quest` whatever the record. -/
theorem ServerGo_writeProjections_gamesByQuest (env : Env) (f : Faults) (q : QuestRun)
    (user : String) (d : Int) (db : Db) (hc : isLeaderboardCandidate q = true)
    (hput : f.putGameByQuest = false) :
    (ServerGo.writeProjections env f q user d db).gamesByQuest =
      putItem env.gamesByQuestKey (summaryFromQuestRun env q) db.gamesByQuest := by
  unfold ServerGo.writeProjections
  simp only [WriteGameByPlayer_fst, hc, if_true]
  obtain ⟨t, ht⟩ := updatePlayerPb_eq env f q user d
    (WriteGameByQuest env f q (updateQuestRecord env f q d db)).1
  rw [ht, WriteGameByQuest_fst, updateQuestRecord_eq]
  simp [hput]

/-! ## The recent-submission window and the quest records (server.go) -/

/-- Recording one more quest run after a list of them. -/
theorem recordAll_append (s : Server) (qs : List QuestRun) (q : QuestRun) :
    recordAll s (qs ++ [q]) = (recordAll s qs).bind (fun s1 => recordRecentGame s1 q) := by
  induction qs generalizing s with
  | nil =>
    simp only [List.nil_append, recordAll, Option.some_bind]
    cases recordRecentGame s q <;> rfl
  | cons x xs ih =>
    simp only [List.cons_append, recordAll]
    cases recordRecentGame s x with
    | none => rfl
    | some s1 => exact ih s1

/-- Starting from `New`, no write panics, the window keeps its 500 slots, and
each of the last 500 recorded quest runs sits in the slot of its rank modulo 500. -/
theorem recordAll_New (qs : List QuestRun) :
    ∃ s, recordAll New qs = some s ∧ s.recentGames.length = 500 ∧ s.recentGamesSize = 500 ∧
      s.recentGamesCount = qs.length ∧
      ∀ i : Nat, i < qs.length → qs.length ≤ i + 500 → s.recentGames[i % 500]? = qs[i]? := by
  induction qs using List.reverseRecOn with
  | nil =>
    refine ⟨New, rfl, ?_, rfl, rfl, ?_⟩
    · exact List.length_replicate 500 QuestRun.zero
    · intro i hi; simp at hi
  | append_singleton qs q ih =>
    obtain ⟨s, hs, hlen, hsize, hcount, hslots⟩ := ih
    have hslot : s.recentGamesCount % s.recentGamesSize < s.recentGames.length := by
      rw [hsize, hlen]; omega
    have hrec : recordRecentGame s q = some { s with
        recentGames := s.recentGames.set (s.recentGamesCount % s.recentGamesSize) q,
        recentGamesCount := s.recentGamesCount + 1 } := by
      unfold recordRecentGame
      rw [if_neg (by rw [hsize]; decide)]
      simp only [hslot, if_true]
    refine ⟨{ s with
        recentGames := s.recentGames.set (s.recentGamesCount % s.recentGamesSize) q,
        recentGamesCount := s.recentGamesCount + 1 }, ?_, ?_, hsize, ?_, ?_⟩
    · rw [recordAll_append, hs, Option.some_bind, hrec]
    · simp [hlen]
    · simp [hcount]
    · intro i hi hwin
      simp only [List.length_append, List.length_singleton] at hi hwin
      simp only [hsize, hcount]
      by_cases hlast : i = qs.length
      · subst hlast
        rw [List.getElem?_set_self (by rw [hlen]; omega)]
        simp
      · have hi2 : i < qs.length := by omega
        rw [List.getElem?_set_ne (by omega), hslots i hi2 (by omega)]
        rw [List.getElem?_append_left hi2]

/-- Handling one more request after a sequence of them. -/
theorem runServerGo_append (env : Env) (st : Server × Db) (reqs : List (Faults × Request))
    (next : Faults × Request) :
    runServerGo env st (reqs ++ [next]) =
      ((ServerGo.PostGame env next.1 (runServerGo env st reqs).1 (runServerGo env st reqs).2
          next.2).server,
        (ServerGo.PostGame env next.1 (runServerGo env st reqs).1 (runServerGo env st reqs).2
          next.2).db) := by
  induction reqs generalizing st with
  | nil => rfl
  | cons x xs ih =>
    obtain ⟨f, req⟩ := x
    simp only [List.cons_append, runServerGo]
    exact ih _

/-- The table `quest_records` after a call of `PostGame` of server.go. -/
theorem ServerGo_PostGame_questRecords (env : Env) (f : Faults) (s : Server) (db : Db)
    (req : Request) :
    (ServerGo.PostGame env f s db req).db.questRecords = db.questRecords ∨
    ∃ (user : String) (body : QuestRun) (d : Int) (gameId : String),
      authenticates env req user body = true ∧
      env.parseDuration body.QuestDuration = some d ∧
      isLeaderboardCandidate body = true ∧
      (questRecordOf db body.QuestName (getCategoryFromQuest body) = none ∨
        ∃ g, questRecordOf db body.QuestName (getCategoryFromQuest body) = some g ∧ d < g.Time) ∧
      (summaryFromQuestRun env ((body.withGuildCard user).withId gameId)).Time = d ∧
      (ServerGo.PostGame env f s db req).db.questRecords =
        putItem questRecordsKey (summaryFromQuestRun env ((body.withGuildCard user).withId gameId))
          db.questRecords := by
  rcases ServerGo_PostGame_cases env f s db req with h | ⟨user, body, d, ha, hd, hp⟩
  · left; rw [h.2.1]
  · rw [hp]
    rcases ServerGo_ingest_questRecords env f s db user body d with h | ⟨gameId, hc, hrec, hw⟩
    · left; exact h
    · right
      refine ⟨user, body, d, gameId, ha, hd, hc, hrec, ?_, hw⟩
      show (env.parseDuration body.QuestDuration).getD 0 = d
      rw [hd]; rfl

/-- C4: record monotonicity for `PostGame` of server.go, whatever the storage
faults. A call leaves `quest_records` as it was, or puts the summary of the
new run, whose time is the parsed duration, and does so only when the key had
no record or a record with a strictly greater time. Hence along any sequence of
calls, once a key has a record it keeps one, and the time stored under the key
does not increase from one call to the next. -/
theorem C4_quest_record_monotone (env : Env) :
    (∀ (f : Faults) (s : Server) (db : Db) (req : Request),
      (ServerGo.PostGame env f s db req).db.questRecords = db.questRecords ∨
      ∃ (user : String) (body : QuestRun) (d : Int) (gameId : String),
        authenticates env req user body = true ∧
        env.parseDuration body.QuestDuration = some d ∧
        isLeaderboardCandidate body = true ∧
        (questRecordOf db body.QuestName (getCategoryFromQuest body) = none ∨
          ∃ g, questRecordOf db body.QuestName (getCategoryFromQuest body) = some g ∧
            d < g.Time) ∧
        (summaryFromQuestRun env ((body.withGuildCard user).withId gameId)).Time = d ∧
        (ServerGo.PostGame env f s db req).db.questRecords =
          putItem questRecordsKey
            (summaryFromQuestRun env ((body.withGuildCard user).withId gameId))
            db.questRecords) ∧
    (∀ (st : Server × Db) (reqs : List (Faults × Request)) (next : Faults × Request)
        (quest category : String) (g : Game),
      questRecordOf (runServerGo env st reqs).2 quest category = some g →
      ∃ g2, questRecordOf (runServerGo env st (reqs ++ [next])).2 quest category = some g2 ∧
        g2.Time ≤ g.Time) := by
  refine ⟨ServerGo_PostGame_questRecords env, ?_⟩
  intro st reqs next quest category g hg
  rw [runServerGo_append]
  generalize (runServerGo env st reqs).1 = s at *
  generalize (runServerGo env st reqs).2 = db at *
  rcases ServerGo_PostGame_questRecords env next.1 s db next.2 with
    h | ⟨user, body, d, gameId, -, -, -, hrec, htime, hw⟩
  · refine ⟨g, ?_, le_refl _⟩
    unfold questRecordOf at hg ⊢
    simp only
    rw [h]; exact hg
  · unfold questRecordOf at hg hrec ⊢
    simp only
    rw [hw, find?_putItem_questRecords]
    by_cases hk : (summaryFromQuestRun env ((body.withGuildCard user).withId gameId)).Quest = quest ∧
        (summaryFromQuestRun env ((body.withGuildCard user).withId gameId)).Category = category
    · rw [if_pos hk]
      refine ⟨_, rfl, ?_⟩
      rw [htime]
      have hq : body.QuestName = quest := hk.1
      have hc : getCategoryFromQuest body = category := hk.2
      rw [hq, hc, hg] at hrec
      rcases hrec with h | ⟨g3, h3, hlt⟩
      · simp at h
      · simp only [Option.some.injEq] at h3
        subst h3
        exact le_of_lt hlt
    · rw [if_neg hk]
      exact ⟨g, hg, le_refl _⟩

set_option maxRecDepth 20000 in
/-- Witness for C4: `alice` sets a record of `1m30s`, then `bob` submits `1m20s`. -/
theorem C4_quest_record_monotone_witness :
    ∃ g2, questRecordOf (runServerGo sampleEnv (New, Db.empty)
        ([(noFaults, sampleRequestA)] ++ [(noFaults, sampleRequestB (5 * Second) "1m20s")])).2
        "Towards the Future" "2n" = some g2 ∧
      g2.Time ≤ (summaryFromQuestRun sampleEnv ((sampleRunA.withGuildCard "alice").withId "1")).Time :=
  (C4_quest_record_monotone sampleEnv).2 (New, Db.empty) [(noFaults, sampleRequestA)]
    (noFaults, sampleRequestB (5 * Second) "1m20s") "Towards the Future" "2n"
    (summaryFromQuestRun sampleEnv ((sampleRunA.withGuildCard "alice").withId "1")) (by decide)

/-- C5: scenario D for `PostGame` of server.go. When an eligible submission has
a parsed duration that is not strictly less than the time of the record stored
under its quest and category, `quest_records` is left as it was; and when the
handler runs to its end and the put does not fail, `games_by_quest` receives
the summary of the new game, whose id is the one in the response body. -/
theorem C5_slower_run_keeps_record (env : Env) (f : Faults) (s : Server) (db : Db)
    (req : Request) (user : String) (body : QuestRun) (d : Int) (g : Game)
    (ha : authenticates env req user body = true)
    (hd : env.parseDuration body.QuestDuration = some d)
    (hc : isLeaderboardCandidate body = true)
    (hg : questRecordOf db body.QuestName (getCategoryFromQuest body) = some g)
    (hle : ¬ d < g.Time) :
    (ServerGo.PostGame env f s db req).db.questRecords = db.questRecords ∧
    ((ServerGo.PostGame env f s db req).completed = true → f.putGameByQuest = false →
      (ServerGo.PostGame env f s db req).db.gamesByQuest =
        putItem env.gamesByQuestKey
          (summaryFromQuestRun env
            ((body.withGuildCard user).withId (ServerGo.PostGame env f s db req).body))
          db.gamesByQuest ∧
      (summaryFromQuestRun env
          ((body.withGuildCard user).withId (ServerGo.PostGame env f s db req).body)).Id =
        (ServerGo.PostGame env f s db req).body ∧
      summaryFromQuestRun env
          ((body.withGuildCard user).withId (ServerGo.PostGame env f s db req).body) ∈
        (ServerGo.PostGame env f s db req).db.gamesByQuest) := by
  have hP := ServerGo_PostGame_of_authenticates env f s db req user body ha
  rw [hd] at hP
  simp only at hP
  rw [hP]
  constructor
  · rcases ServerGo_ingest_questRecords env f s db user body d with h | ⟨gameId, -, hrec, -⟩
    · exact h
    · rw [hg] at hrec
      rcases hrec with h | ⟨g3, h3, hlt⟩
      · simp at h
      · simp only [Option.some.injEq] at h3
        subst h3
        exact absurd hlt hle
  · intro hdone hput
    obtain ⟨hfr, -, -, -, -⟩ := WriteGameById_frame env f (body.withGuildCard user) db
    rcases ServerGo_ingest_cases env f s db user body d with
      ⟨-, h⟩ | ⟨-, -, h⟩ | ⟨-, s1, -, h⟩
    · rw [h] at hdone; simp [reply, Result.completed] at hdone
    · rw [h] at hdone; simp [panicking, Result.completed] at hdone
    · rw [h]
      simp only
      have hq := ServerGo_writeProjections_gamesByQuest env f
        ((body.withGuildCard user).withId (WriteGameById env f (body.withGuildCard user) db).2.1)
        user d (WriteGameById env f (body.withGuildCard user) db).1 hc hput
      rw [hq, hfr]
      exact ⟨rfl, rfl, List.mem_cons_self _ _⟩

/-- A call of `PostGame` of server.go leaves the window as it was or records
one quest run in it. -/
theorem ServerGo_PostGame_server (env : Env) (f : Faults) (s : Server) (db : Db)
    (req : Request) :
    (ServerGo.PostGame env f s db req).server = s ∨
    ∃ q, recordRecentGame s q = some (ServerGo.PostGame env f s db req).server := by
  rcases ServerGo_PostGame_cases env f s db req with h | ⟨user, body, d, -, -, hp⟩
  · left; exact h.1
  · rw [hp]
    rcases ServerGo_ingest_cases env f s db user body d with
      ⟨-, h⟩ | ⟨-, -, h⟩ | ⟨-, s1, hrec, h⟩
    · left; rw [h]; rfl
    · left; rw [h]; rfl
    · right; rw [h]; exact ⟨_, hrec⟩

/-- The window after a sequence of calls is the window after recording some
list of quest runs, at most one per call. -/
theorem runServerGo_recorded (env : Env) (st : Server × Db) (reqs : List (Faults × Request)) :
    ∃ qs : List QuestRun, qs.length ≤ reqs.length ∧
      recordAll st.1 qs = some (runServerGo env st reqs).1 := by
  induction reqs generalizing st with
  | nil => exact ⟨[], le_refl _, rfl⟩
  | cons x xs ih =>
    obtain ⟨f, req⟩ := x
    obtain ⟨qs, hlen, hqs⟩ := ih
      ((ServerGo.PostGame env f st.1 st.2 req).server, (ServerGo.PostGame env f st.1 st.2 req).db)
    simp only [runServerGo]
    rcases ServerGo_PostGame_server env f st.1 st.2 req with h | ⟨q, hq⟩
    · refine ⟨qs, ?_, ?_⟩
      · simp only [List.length_cons]; omega
      · rw [← hqs, h]
    · refine ⟨q :: qs, ?_, ?_⟩
      · simp only [List.length_cons]; omega
      · simp only [recordAll, hq]
        exact hqs

set_option maxRecDepth 20000 in
/-- Counterexample to C8 as stated: the by-month write fails, `PostGame` answers
500, and `games_by_id`, empty before, holds the row of the submission. -/
theorem C8_counterexample :
    (ServerGo.PostGame sampleEnv { noFaults with putRecentGame := true } New Db.empty
        sampleRequestA).status = 500 ∧
    Db.empty.gamesById = [] ∧
    ((ServerGo.PostGame sampleEnv { noFaults with putRecentGame := true } New Db.empty
        sampleRequestA).db.gamesById.map (fun g => (g.Id, g.Player, g.Quest))) =
      [("1", "alice", "Towards the Future")] := by
  decide

/-! ## Duplicate-attach (write_game.go) -/

/-- The only thing `AttachGameToId` touches is its own log. -/
theorem AttachGameToId_fst (f : Faults) (q : QuestRun) (id : String) (db : Db) :
    (AttachGameToId f q id db).1 =
      { db with attached := if f.attachGame then db.attached else (q, id) :: db.attached } := by
  unfold AttachGameToId
  split_ifs <;> rfl

/-- The tables the leaderboard block of write_game.go can write, and the table
`quest_records` after it. -/
theorem WriteGameGo_writeProjections_eq (env : Env) (f : Faults) (q : QuestRun) (user : String)
    (d : Int) (unmatched : Bool) (db : Db) :
    ∃ t1 t3 t4, WriteGameGo.writeProjections env f q user d unmatched db =
      { db with
        gamesByQuest := t1,
        questRecords :=
          (if isLeaderboardCandidate q = true ∧ unmatched = true then
            (updateQuestRecord env f q d db).questRecords
          else db.questRecords),
        recentGamesByPlayer := t3,
        playerPb := t4 } := by
  unfold WriteGameGo.writeProjections
  simp only [WriteGameByPlayer_fst]
  by_cases hc : isLeaderboardCandidate q = true
  · cases unmatched
    · obtain ⟨t, ht⟩ := updatePlayerPb_eq env f q user d (WriteGameByQuest env f q db).1
      simp only [hc, if_true, Bool.false_eq_true, if_false, and_false]
      rw [ht, WriteGameByQuest_fst]
      exact ⟨_, _, _, rfl⟩
    · obtain ⟨t, ht⟩ := updatePlayerPb_eq env f q user d
        (WriteGameByQuest env f q (updateQuestRecord env f q d db)).1
      simp only [hc, if_true, and_self]
      rw [ht, WriteGameByQuest_fst, updateQuestRecord_eq]
      exact ⟨_, _, _, rfl⟩
  · simp only [hc, if_false, false_and]
    exact ⟨_, _, _, rfl⟩

/-- The four ways an ingestion by write_game.go can end. -/
theorem WriteGameGo_ingest_cases (env : Env) (f : Faults) (s : Server) (db : Db)
    (user : String) (body : QuestRun) (d : Int) :
    ((WriteGameById env f (body.withUserName user) db).2.2 = true ∧
      WriteGameGo.ingest env f s db user body d =
        reply s (WriteGameById env f (body.withUserName user) db).1 500 true) ∨
    ((WriteGameById env f (body.withUserName user) db).2.2 = false ∧
      ∃ m, s.recentGames.find? (fun recentGame => gamesMatch recentGame body) = some m ∧
        WriteGameGo.ingest env f s db user body d =
          { server := s,
            db := WriteGameGo.writeProjections env f ((body.withUserName user).withId
                (WriteGameById env f (body.withUserName user) db).2.1) user d false
              (AttachGameToId f ((body.withUserName user).withId
                (WriteGameById env f (body.withUserName user) db).2.1) m.Id
                (WriteGameById env f (body.withUserName user) db).1).1,
            status := 200,
            body := (WriteGameById env f (body.withUserName user) db).2.1,
            err := false, panicked := false }) ∨
    ((WriteGameById env f (body.withUserName user) db).2.2 = false ∧
      s.recentGames.find? (fun recentGame => gamesMatch recentGame body) = none ∧
      recordRecentGame s ((body.withUserName user).withId
        (WriteGameById env f (body.withUserName user) db).2.1) = none ∧
      WriteGameGo.ingest env f s db user body d =
        panicking s (WriteGameById env f (body.withUserName user) db).1) ∨
    ((WriteGameById env f (body.withUserName user) db).2.2 = false ∧
      s.recentGames.find? (fun recentGame => gamesMatch recentGame body) = none ∧
      ∃ s1, recordRecentGame s ((body.withUserName user).withId
          (WriteGameById env f (body.withUserName user) db).2.1) = some s1 ∧
        WriteGameGo.ingest env f s db user body d =
          { server := s1,
            db := WriteGameGo.writeProjections env f ((body.withUserName user).withId
              (WriteGameById env f (body.withUserName user) db).2.1) user d true
              (WriteGameById env f (body.withUserName user) db).1,
            status := 200,
            body := (WriteGameById env f (body.withUserName user) db).2.1,
            err := false, panicked := false }) := by
  unfold WriteGameGo.ingest
  dsimp only
  rcases WriteGameById env f (body.withUserName user) db with ⟨db1, gameId, err⟩
  have hfun : (fun recentGame => gamesMatch recentGame ((body.withUserName user).withId gameId)) =
      (fun recentGame => gamesMatch recentGame body) := rfl
  cases err
  · right
    simp only
    rw [hfun]
    cases hfind : s.recentGames.find? (fun recentGame => gamesMatch recentGame body) with
    | some m => left; simp
    | none =>
      right
      simp only
      cases hrec : recordRecentGame s ((body.withUserName user).withId gameId) with
      | none => left; simp
      | some s1 => right; simp
  · left
    simp


/-- A recorded quest run is in the window. -/
theorem recordRecentGame_mem (s s1 : Server) (q : QuestRun)
    (h : recordRecentGame s q = some s1) : q ∈ s1.recentGames := by
  unfold recordRecentGame at h
  dsimp only at h
  split_ifs at h with h0 hslot
  simp only [Option.some.injEq] at h
  subst h
  simp only
  rw [List.mem_iff_getElem?]
  exact ⟨_, List.getElem?_set_self hslot⟩

/-- C6, as amended: in `PostGame` of write_game.go, `WriteGameById` runs before
the scan. When it has succeeded and the scan finds a matching entry, the
counter has been incremented, `games_by_id` holds a new row under the new id,
the 200 response body is that new id, the window is left as it was, and the
submission is handed to `AttachGameToId` with the id of the matched game. -/
theorem C6_duplicate_attach_mints_new_id (env : Env) (f : Faults) (s : Server) (db : Db)
    (req : Request) (user : String) (body : QuestRun) (d : Int) (m : QuestRun)
    (ha : authenticates env req user body = true)
    (hd : env.parseDuration body.QuestDuration = some d)
    (hw : (WriteGameById env f (body.withUserName user) db).2.2 = false)
    (hm : s.recentGames.find? (fun recentGame => gamesMatch recentGame body) = some m) :
    (WriteGameGo.PostGame env f s db req).status = 200 ∧
    (WriteGameGo.PostGame env f s db req).panicked = false ∧
    (WriteGameGo.PostGame env f s db req).body = toString (db.gameCount + 1) ∧
    (WriteGameGo.PostGame env f s db req).db.gameCount = db.gameCount + 1 ∧
    (∃ game : Game, game.Id = (WriteGameGo.PostGame env f s db req).body ∧
      (WriteGameGo.PostGame env f s db req).db.gamesById =
        putItem gamesByIdKey game db.gamesById) ∧
    (WriteGameGo.PostGame env f s db req).server = s ∧
    (f.attachGame = false →
      (WriteGameGo.PostGame env f s db req).db.attached =
        ((body.withUserName user).withId (toString (db.gameCount + 1)), m.Id) :: db.attached) := by
  have hP := WriteGameGo_PostGame_of_authenticates env f s db req user body ha
  rw [hd] at hP
  simp only at hP
  rw [hP]
  obtain ⟨-, -, -, -, hatt⟩ := WriteGameById_frame env f (body.withUserName user) db
  rcases WriteGameById_spec env f (body.withUserName user) db with
    ⟨herr, -, -⟩ | ⟨-, -, hcount, hid, -, ⟨game, hgid, -, hput⟩, -⟩
  · rw [hw] at herr; simp at herr
  · rcases WriteGameGo_ingest_cases env f s db user body d with
      ⟨herr, -⟩ | ⟨-, m2, hm2, h⟩ | ⟨-, hnone, -, -⟩ | ⟨-, hnone, -, -⟩
    · rw [hw] at herr; simp at herr
    · rw [hm] at hm2
      simp only [Option.some.injEq] at hm2
      subst hm2
      rw [h]
      obtain ⟨t1, t3, t4, hproj⟩ := WriteGameGo_writeProjections_eq env f
        ((body.withUserName user).withId (WriteGameById env f (body.withUserName user) db).2.1)
        user d false
        (AttachGameToId f ((body.withUserName user).withId
          (WriteGameById env f (body.withUserName user) db).2.1) m.Id
          (WriteGameById env f (body.withUserName user) db).1).1
      simp only
      rw [hproj, AttachGameToId_fst]
      simp only
      refine ⟨trivial, trivial, hid, hcount, ⟨game, ?_, hput⟩, trivial, ?_⟩
      · rw [hgid, hid]
      · intro hno
        rw [hno, hatt, hid]
        simp
    · rw [hm] at hnone; simp at hnone
    · rw [hm] at hnone; simp at hnone

/-- A complete, legal Ultimate run is leaderboard-eligible. -/
theorem isLeaderboardCandidate_of_ultimate (q : QuestRun) (hu : q.Difficulty = "Ultimate")
    (hcomplete : q.QuestComplete = true) (hlegal : q.IllegalShifta = false) :
    isLeaderboardCandidate q = true := by
  unfold isLeaderboardCandidate
  simp [hu, hcomplete, hlegal]

/-- C7, as amended: scenario B for `PostGame` of write_game.go. A complete, legal
Ultimate quest with no prior record is submitted by one participant, matching
nothing in the window, and then by a second participant whose report matches
the first; both calls run to their end without storage faults. Afterwards the
record of the quest and category is the first game, with the first duration:
the second submission is attached and skips the quest-record step. The record
is the lower of the two durations exactly when the first is not the greater. -/
theorem C7_attached_run_keeps_first_record (env : Env) (s : Server) (db : Db)
    (req1 req2 : Request) (user1 user2 : String) (q1 q2 : QuestRun) (d1 d2 : Int)
    (ha1 : authenticates env req1 user1 q1 = true)
    (hd1 : env.parseDuration q1.QuestDuration = some d1)
    (ha2 : authenticates env req2 user2 q2 = true)
    (hd2 : env.parseDuration q2.QuestDuration = some d2)
    (hu : q1.Difficulty = "Ultimate") (hcomplete : q1.QuestComplete = true)
    (hlegal : q1.IllegalShifta = false)
    (hnew : questRecordOf db q1.QuestName (getCategoryFromQuest q1) = none)
    (hfirst : s.recentGames.find? (fun recentGame => gamesMatch recentGame q1) = none)
    (hmatch : gamesMatch q1 q2 = true)
    (hok1 : (WriteGameGo.PostGame env noFaults s db req1).completed = true)
    (hok2 : (WriteGameGo.PostGame env noFaults
      (WriteGameGo.PostGame env noFaults s db req1).server
      (WriteGameGo.PostGame env noFaults s db req1).db req2).completed = true) :
    ∃ g, questRecordOf (WriteGameGo.PostGame env noFaults
        (WriteGameGo.PostGame env noFaults s db req1).server
        (WriteGameGo.PostGame env noFaults s db req1).db req2).db
        q1.QuestName (getCategoryFromQuest q1) = some g ∧
      g.Time = d1 ∧ g.Id = (WriteGameGo.PostGame env noFaults s db req1).body ∧
      (g.Time = min d1 d2 ↔ d1 ≤ d2) := by
  have hc : isLeaderboardCandidate q1 = true :=
    isLeaderboardCandidate_of_ultimate q1 hu hcomplete hlegal
  have hP1 := WriteGameGo_PostGame_of_authenticates env noFaults s db req1 user1 q1 ha1
  rw [hd1] at hP1
  simp only at hP1
  rw [hP1] at hok2 hok1 ⊢
  obtain ⟨-, hfr1, -, -, -⟩ := WriteGameById_frame env noFaults (q1.withUserName user1) db
  rcases WriteGameGo_ingest_cases env noFaults s db user1 q1 d1 with
    ⟨-, h⟩ | ⟨-, m, hm, -⟩ | ⟨-, -, -, h⟩ | ⟨-, -, s1, hrec, h⟩
  · rw [h] at hok1; simp [reply, Result.completed] at hok1
  · rw [hfirst] at hm; simp at hm
  · rw [h] at hok1; simp [panicking, Result.completed] at hok1
  · rw [h] at hok2 ⊢
    simp only at hok2 ⊢
    obtain ⟨t1, t3, t4, hproj⟩ := WriteGameGo_writeProjections_eq env noFaults
      ((q1.withUserName user1).withId (WriteGameById env noFaults (q1.withUserName user1) db).2.1)
      user1 d1 true (WriteGameById env noFaults (q1.withUserName user1) db).1
    generalize WriteGameGo.writeProjections env noFaults
      ((q1.withUserName user1).withId (WriteGameById env noFaults (q1.withUserName user1) db).2.1)
      user1 d1 true (WriteGameById env noFaults (q1.withUserName user1) db).1 = dbA at *
    have hmem := recordRecentGame_mem s s1 _ hrec
    have hP2 := WriteGameGo_PostGame_of_authenticates env noFaults s1 dbA req2 user2 q2 ha2
    rw [hd2] at hP2
    simp only at hP2
    rw [hP2] at hok2 ⊢
    obtain ⟨-, hfr2, -, -, -⟩ := WriteGameById_frame env noFaults (q2.withUserName user2) dbA
    rcases WriteGameGo_ingest_cases env noFaults s1 dbA user2 q2 d2 with
      ⟨-, h2⟩ | ⟨-, m, -, h2⟩ | ⟨-, -, -, h2⟩ | ⟨-, hnone, -, -⟩
    · rw [h2] at hok2; simp [reply, Result.completed] at hok2
    · rw [h2]
      obtain ⟨u1, u3, u4, hproj2⟩ := WriteGameGo_writeProjections_eq env noFaults
        ((q2.withUserName user2).withId
          (WriteGameById env noFaults (q2.withUserName user2) dbA).2.1)
        user2 d2 false
        (AttachGameToId noFaults ((q2.withUserName user2).withId
          (WriteGameById env noFaults (q2.withUserName user2) dbA).2.1) m.Id
          (WriteGameById env noFaults (q2.withUserName user2) dbA).1).1
      simp only
      unfold questRecordOf
      rw [hproj2, AttachGameToId_fst]
      simp only [Bool.false_eq_true, and_false, if_false]
      rw [hfr2, hproj]
      simp only
      have hcand : isLeaderboardCandidate ((q1.withUserName user1).withId
          (WriteGameById env noFaults (q1.withUserName user1) db).2.1) = true := hc
      rw [if_pos ⟨hcand, trivial⟩, updateQuestRecord_eq]
      simp only
      have hq : questRecordOf (WriteGameById env noFaults (q1.withUserName user1) db).1
          ((q1.withUserName user1).withId
            (WriteGameById env noFaults (q1.withUserName user1) db).2.1).QuestName
          (getCategoryFromQuest ((q1.withUserName user1).withId
            (WriteGameById env noFaults (q1.withUserName user1) db).2.1)) = none := by
        unfold questRecordOf at hnew ⊢
        rw [hfr1]
        exact hnew
      rw [hq]
      simp only [noFaults, Bool.false_eq_true, or_self, if_false]
      rw [find?_putItem_questRecords]
      rw [if_pos ⟨rfl, rfl⟩]
      refine ⟨_, rfl, ?_, rfl, ?_⟩
      · show (env.parseDuration q1.QuestDuration).getD 0 = d1
        rw [hd1]; rfl
      · have ht : ∀ id : String,
            (summaryFromQuestRun env ((q1.withUserName user1).withId id)).Time = d1 := by
          intro id
          show (env.parseDuration q1.QuestDuration).getD 0 = d1
          rw [hd1]; rfl
        rw [ht]
        constructor
        · intro hmin
          rw [hmin]
          exact min_le_right d1 d2
        · intro hle
          exact (min_eq_left hle).symm
    · rw [h2] at hok2; simp [panicking, Result.completed] at hok2
    · exfalso
      rw [List.find?_eq_none] at hnone
      have := hnone _ hmem
      apply this
      rw [← hmatch]
      rfl

set_option maxRecDepth 20000 in
/-- Witness for C5: `bob` holds the record with `1m20s`, `alice` submits `1m30s`. -/
theorem C5_slower_run_keeps_record_witness :
    (ServerGo.PostGame sampleEnv noFaults sampleRecordSet.server sampleRecordSet.db
        sampleRequestA).db.questRecords = sampleRecordSet.db.questRecords ∧
    summaryFromQuestRun sampleEnv ((sampleRunA.withGuildCard "alice").withId
        (ServerGo.PostGame sampleEnv noFaults sampleRecordSet.server sampleRecordSet.db
          sampleRequestA).body) ∈
      (ServerGo.PostGame sampleEnv noFaults sampleRecordSet.server sampleRecordSet.db
        sampleRequestA).db.gamesByQuest :=
  ⟨(C5_slower_run_keeps_record sampleEnv noFaults sampleRecordSet.server sampleRecordSet.db
      sampleRequestA "alice" sampleRunA (90 * Second)
      (summaryFromQuestRun sampleEnv (((sampleRunB 0 "1m20s").withGuildCard "bob").withId "1"))
      (by decide) (by decide) (by decide) (by decide) (by decide)).1,
    ((C5_slower_run_keeps_record sampleEnv noFaults sampleRecordSet.server sampleRecordSet.db
      sampleRequestA "alice" sampleRunA (90 * Second)
      (summaryFromQuestRun sampleEnv (((sampleRunB 0 "1m20s").withGuildCard "bob").withId "1"))
      (by decide) (by decide) (by decide) (by decide) (by decide)).2
      (by decide) (by decide)).2.2⟩

set_option maxRecDepth 20000 in
/-- Counterexample to C6 as stated: `bob`'s report matches the window entry of
game 1, and still the counter goes from 1 to 2, `games_by_id` gains a row
under id 2, and the 200 response body is 2, not 1. -/
theorem C6_counterexample :
    (sampleFirstReport.server.recentGames.find?
        (fun recentGame => gamesMatch recentGame (sampleRunB (5 * Second) "1m20s"))).map
      (fun matchingGame => matchingGame.Id) = some "1" ∧
    sampleFirstReport.db.gameCount = 1 ∧
    sampleFirstReport.db.gamesById.map (fun g => g.Id) = ["1"] ∧
    sampleSecondReport.status = 200 ∧
    sampleSecondReport.body = "2" ∧
    sampleSecondReport.db.gameCount = 2 ∧
    sampleSecondReport.db.gamesById.map (fun g => g.Id) = ["2", "1"] := by
  decide

set_option maxRecDepth 20000 in
/-- Witness for C6 as amended: `bob`'s report after `alice`'s. -/
theorem C6_duplicate_attach_mints_new_id_witness :
    sampleSecondReport.status = 200 ∧
    sampleSecondReport.body = toString (sampleFirstReport.db.gameCount + 1) ∧
    sampleSecondReport.server = sampleFirstReport.server :=
  ⟨(C6_duplicate_attach_mints_new_id sampleEnv noFaults sampleFirstReport.server
      sampleFirstReport.db (sampleRequestB (5 * Second) "1m20s") "bob"
      (sampleRunB (5 * Second) "1m20s") (80 * Second)
      ((sampleRunA.withUserName "alice").withId "1")
      (by decide) (by decide) (by decide) (by decide)).1,
    (C6_duplicate_attach_mints_new_id sampleEnv noFaults sampleFirstReport.server
      sampleFirstReport.db (sampleRequestB (5 * Second) "1m20s") "bob"
      (sampleRunB (5 * Second) "1m20s") (80 * Second)
      ((sampleRunA.withUserName "alice").withId "1")
      (by decide) (by decide) (by decide) (by decide)).2.2.1,
    (C6_duplicate_attach_mints_new_id sampleEnv noFaults sampleFirstReport.server
      sampleFirstReport.db (sampleRequestB (5 * Second) "1m20s") "bob"
      (sampleRunB (5 * Second) "1m20s") (80 * Second)
      ((sampleRunA.withUserName "alice").withId "1")
      (by decide) (by decide) (by decide) (by decide)).2.2.2.2.2.1⟩

set_option maxRecDepth 20000 in
/-- Counterexample to C7 as stated: `alice` reports `1m30s`, then `bob` reports the
same two-player Ultimate session with `1m20s`; both calls answer 200 and the
record still holds ninety seconds, not the lower eighty. -/
theorem C7_counterexample :
    sampleRunA.AllPlayers.length = 2 ∧
    sampleRunA.Difficulty = "Ultimate" ∧
    gamesMatch sampleRunA (sampleRunB (5 * Second) "1m20s") = true ∧
    sampleParseDuration sampleRunA.QuestDuration = some (90 * Second) ∧
    sampleParseDuration (sampleRunB (5 * Second) "1m20s").QuestDuration = some (80 * Second) ∧
    sampleFirstReport.status = 200 ∧ sampleSecondReport.status = 200 ∧
    (questRecordOf sampleSecondReport.db "Towards the Future" "2n").map (fun g => g.Time) =
      some (90 * Second) ∧
    (questRecordOf sampleSecondReport.db "Towards the Future" "2n").map (fun g => g.Time) ≠
      some (min (90 * Second) (80 * Second)) := by
  decide

set_option maxRecDepth 20000 in
/-- Witness for C7 as amended: `alice`'s report, then `bob`'s. -/
theorem C7_attached_run_keeps_first_record_witness :
    ∃ g, questRecordOf sampleSecondReport.db sampleRunA.QuestName
        (getCategoryFromQuest sampleRunA) = some g ∧
      g.Time = 90 * Second ∧ g.Id = sampleFirstReport.body ∧
      (g.Time = min (90 * Second) (80 * Second) ↔ 90 * Second ≤ 80 * Second) :=
  C7_attached_run_keeps_first_record sampleEnv New Db.empty sampleRequestA
    (sampleRequestB (5 * Second) "1m20s") "alice" "bob" sampleRunA
    (sampleRunB (5 * Second) "1m20s") (90 * Second) (80 * Second)
    (by decide) (by decide) (by decide) (by decide) (by decide) (by decide) (by decide)
    (by decide) (by decide) (by decide) (by decide) (by decide)


/-! ## Category strings, eligibility, credentials and keys -/

/-- The digit loop of `Nat.toDigits` produces the base-ten digits of a positive
number, most significant first, in front of the accumulator. -/
theorem toDigitsCore_eq_digits (fuel : Nat) :
    ∀ (n : Nat) (ds : List Char), 0 < n → n < fuel →
      Nat.toDigitsCore 10 fuel n ds = (Nat.digits 10 n).reverse.map Nat.digitChar ++ ds := by
  induction fuel with
  | zero => intro n ds _ h; omega
  | succ fuel ih =>
    intro n ds hpos hlt
    have hdig : Nat.digits 10 n = (n % 10) :: Nat.digits 10 (n / 10) :=
      Nat.digits_def' (by decide) hpos
    unfold Nat.toDigitsCore
    dsimp only
    by_cases h0 : n / 10 = 0
    · rw [if_pos h0, hdig, h0]
      simp
    · rw [if_neg h0, ih (n / 10) _ (Nat.pos_of_ne_zero h0) (by omega), hdig]
      simp

/-- The characters `Nat.toDigits 10` gives for a positive number are its
base-ten digits, most significant first. -/
theorem toDigits_eq_digits (n : Nat) (hpos : 0 < n) :
    Nat.toDigits 10 n = (Nat.digits 10 n).reverse.map Nat.digitChar := by
  unfold Nat.toDigits
  rw [toDigitsCore_eq_digits (n + 1) n [] hpos (by omega)]
  simp

/-- The function `Nat.repr`, which is what `%d` prints for a natural number,
is the decimal representation. -/
theorem repr_eq_decimal (n : Nat) : Nat.repr n = decimal n := by
  unfold decimal
  by_cases h : n = 0
  · subst h; rfl
  · rw [if_neg h]
    show String.mk (Nat.toDigits 10 n) = _
    rw [toDigits_eq_digits n (Nat.pos_of_ne_zero h)]

set_option maxRecDepth 20000 in
/-- C11: a freshly constructed server is meant to find no match for any incoming
quest run. On the code the 500 slots of `New` hold zero-valued quest runs and
the scan reads them all: a run with empty quest name, difficulty and server,
episode 0, no participants and a non-empty GuildCard matches the first slot,
and `PostGame` of write_game.go attaches it to the empty game id instead of
recording it. -/
theorem C11_fresh_window_matches_empty_run :
    New.recentGamesCount = 0 ∧
    New.recentGames.find? (fun recentGame => gamesMatch recentGame sampleRunEmpty) =
      some QuestRun.zero ∧
    (WriteGameGo.PostGame sampleEnv noFaults New Db.empty sampleRequestEmpty).status = 200 ∧
    (WriteGameGo.PostGame sampleEnv noFaults New Db.empty sampleRequestEmpty).server = New ∧
    (WriteGameGo.PostGame sampleEnv noFaults New Db.empty sampleRequestEmpty).db.attached =
      [((sampleRunEmpty.withUserName "alice").withId "1", "")] := by
  decide

/-- The function `strings.HasPrefix` answers `true` exactly on the strings that
are the prefix followed by some rest. -/
theorem HasPrefix_iff (s p : String) : HasPrefix s p = true ↔ ∃ rest : String, s = p ++ rest := by
  unfold HasPrefix
  rw [List.isPrefixOf_iff_prefix]
  constructor
  · rintro ⟨t, ht⟩
    refine ⟨String.mk t, String.ext ?_⟩
    rw [String.data_append]
    exact ht.symm
  · rintro ⟨rest, rfl⟩
    exact ⟨rest.data, (String.data_append p rest).symm⟩

/-- C13: `isLeaderboardCandidate q` is true if and only if the difficulty is
`Ultimate` or the quest name starts with `Stage`, and the run is complete, and
it is not flagged illegal; hence no incomplete run and no run flagged illegal
is eligible, whatever its difficulty or name. -/
theorem C13_isLeaderboardCandidate_iff :
    (∀ q : QuestRun, isLeaderboardCandidate q = true ↔
      (q.Difficulty = "Ultimate" ∨ ∃ rest : String, q.QuestName = "Stage" ++ rest) ∧
        q.QuestComplete = true ∧ q.IllegalShifta = false) ∧
    (∀ q : QuestRun, q.QuestComplete = false → isLeaderboardCandidate q = false) ∧
    (∀ q : QuestRun, q.IllegalShifta = true → isLeaderboardCandidate q = false) := by
  refine ⟨?_, ?_, ?_⟩
  · intro q
    unfold isLeaderboardCandidate
    simp only [Bool.and_eq_true, Bool.or_eq_true, beq_iff_eq, Bool.not_eq_true', HasPrefix_iff]
    tauto
  · intro q h
    unfold isLeaderboardCandidate
    simp [h]
  · intro q h
    unfold isLeaderboardCandidate
    simp [h]

/-- Witness for C13: the sample Ultimate run, made incomplete or flagged illegal. -/
theorem C13_isLeaderboardCandidate_iff_witness :
    isLeaderboardCandidate { sampleRunA with QuestComplete := false } = false ∧
    isLeaderboardCandidate { sampleRunA with IllegalShifta := true } = false :=
  ⟨C13_isLeaderboardCandidate_iff.2.1 { sampleRunA with QuestComplete := false } (by decide),
    C13_isLeaderboardCandidate_iff.2.2 { sampleRunA with IllegalShifta := true } (by decide)⟩

/-- The category string of a positive player count. -/
theorem getCategoryString_of_pos (n : Int) (pb : Bool) (h : 1 ≤ n) :
    getCategoryString n pb = decimal n.toNat ++ (if pb then "p" else "n") := by
  unfold getCategoryString
  have hs : toString n = decimal n.toNat := by
    cases n with
    | ofNat m => exact repr_eq_decimal m
    | negSucc m =>
      have := Int.negSucc_lt_zero m
      omega
  simp only [hs]
  cases pb <;> rfl

/-- C14: for every player count `n >= 1` and flag `pb`, `getCategoryString n pb`
is the decimal representation of `n` followed by `p` when `pb` is true and by
`n` when it is false; and `getCategoryFromQuest q` is `getCategoryString` of the
length of `AllPlayers` and of `PbCategory`, so two runs that agree on these two
have the same category. -/
theorem C14_category_string :
    (∀ (n : Int) (pb : Bool), 1 ≤ n →
      getCategoryString n pb = decimal n.toNat ++ (if pb then "p" else "n")) ∧
    (∀ q : QuestRun,
      getCategoryFromQuest q = getCategoryString q.AllPlayers.length q.PbCategory) ∧
    (∀ q1 q2 : QuestRun, q1.AllPlayers.length = q2.AllPlayers.length →
      q1.PbCategory = q2.PbCategory → getCategoryFromQuest q1 = getCategoryFromQuest q2) := by
  refine ⟨getCategoryString_of_pos, fun q => rfl, ?_⟩
  intro q1 q2 hl hp
  unfold getCategoryFromQuest
  rw [hl, hp]

/-- Witness for C14: twelve players with the flag set, and the two sample reports. -/
theorem C14_category_string_witness :
    getCategoryString 12 true = decimal (12 : Int).toNat ++ (if true then "p" else "n") ∧
    getCategoryFromQuest sampleRunA = getCategoryFromQuest (sampleRunB 0 "1m20s") :=
  ⟨C14_category_string.1 12 true (by decide),
    C14_category_string.2.2 sampleRunA (sampleRunB 0 "1m20s") (by decide) (by decide)⟩

/-- Counterexample to C15 as stated: for the counts 0 and -1, and for a quest run
without participants, the classifier returns a category string. -/
theorem C15_counterexample :
    getCategoryString 0 false = "0n" ∧ getCategoryString (-1) true = "-1p" ∧
    getCategoryFromQuest sampleRunEmpty = "0n" := by
  decide

/-- C15, as amended: `getCategoryString` has no failure mode. For every `n <= 0`
it returns a string, `0` for zero and a minus sign followed by the decimal
representation of `-n` otherwise, followed by `p` or `n`; for a quest run
whose `AllPlayers` list is empty `getCategoryFromQuest` returns `0p` or `0n`. -/
theorem C15_category_of_nonpositive :
    (∀ (n : Int) (pb : Bool), n ≤ 0 →
      getCategoryString n pb =
        (if n = 0 then "0" else "-" ++ decimal (-n).toNat) ++ (if pb then "p" else "n")) ∧
    (∀ q : QuestRun, q.AllPlayers = [] →
      getCategoryFromQuest q = if q.PbCategory then "0p" else "0n") := by
  constructor
  · intro n pb hn
    unfold getCategoryString
    have hs : toString n = if n = 0 then "0" else "-" ++ decimal (-n).toNat := by
      cases n with
      | ofNat m =>
        have hm : m = 0 := by
          have : (Int.ofNat m) = (m : Int) := rfl
          omega
        subst hm
        rfl
      | negSucc m =>
        have hne : Int.negSucc m ≠ 0 := by
          have := Int.negSucc_lt_zero m
          omega
        rw [if_neg hne]
        show "-" ++ Nat.repr (m + 1) = _
        rw [repr_eq_decimal]
        rfl
    simp only [hs]
    cases pb <;> rfl
  · intro q hq
    unfold getCategoryFromQuest getCategoryString
    rw [hq]
    cases q.PbCategory <;> rfl

/-- Witness for C15 as amended: the count -3, and the run without participants. -/
theorem C15_category_of_nonpositive_witness :
    getCategoryString (-3) true =
      (if (-3 : Int) = 0 then "0" else "-" ++ decimal (-(-3 : Int)).toNat) ++
        (if true then "p" else "n") ∧
    getCategoryFromQuest sampleRunEmpty = (if sampleRunEmpty.PbCategory then "0p" else "0n") :=
  ⟨C15_category_of_nonpositive.1 (-3) true (by decide),
    C15_category_of_nonpositive.2 sampleRunEmpty rfl⟩

/-- Without a separator `strings.SplitN(s, sep, 2)` is the one-element slice `[s]`. -/
theorem SplitN2_of_not_mem (s : String) (sep : Char) (h : sep ∉ s.data) :
    SplitN2 s sep = [s] := by
  unfold SplitN2
  have hspan : s.toList.span (fun c => c != sep) = (s.toList, []) := by
    rw [List.span_eq_take_drop]
    have hall : ∀ c ∈ s.toList, (c != sep) = true := by
      intro c hc
      simp only [bne_iff_ne, ne_eq]
      intro hEq
      subst hEq
      exact h hc
    rw [List.takeWhile_eq_self_iff.2 hall, List.dropWhile_eq_nil_iff.2 hall]
  rw [hspan]
  rfl

/-- Credentials that decode to a string without a colon make
`getUserFromBasicAuth` index past the end of `authSplit`. -/
theorem getUserFromBasicAuth_no_colon (env : Env) (payload auth : String)
    (hdec : env.decodeBase64 payload = some auth) (hcolon : ':' ∉ auth.data) :
    getUserFromBasicAuth env ("Basic " ++ payload) = AuthResult.panic := by
  have hpre : HasPrefix ("Basic " ++ payload) "Basic " = true :=
    (HasPrefix_iff _ _).2 ⟨payload, rfl⟩
  have htrim : TrimPrefix ("Basic " ++ payload) "Basic " = payload := by
    unfold TrimPrefix
    rw [if_pos hpre]
    apply String.ext
    show (("Basic " ++ payload).data.drop 6) = payload.data
    rw [String.data_append]
    rfl
  have hcond : (decide (("Basic " ++ payload).length > 0) &&
      HasPrefix ("Basic " ++ payload) "Basic ") = true := by
    rw [hpre, Bool.and_true, decide_eq_true_iff, String.length_append]
    have h6 : "Basic ".length = 6 := rfl
    omega
  unfold getUserFromBasicAuth
  rw [if_pos hcond]
  simp only [htrim, hdec, SplitN2_of_not_mem auth ':' hcolon]

/-- Both versions of `PostGame` panic on credentials without a colon, before any
status is set. -/
theorem PostGame_panics_of_no_colon (env : Env) (f : Faults) (s : Server) (db : Db)
    (req : Request) (payload auth : String) (hreq : req.authorization = "Basic " ++ payload)
    (hdec : env.decodeBase64 payload = some auth) (hcolon : ':' ∉ auth.data) :
    ServerGo.PostGame env f s db req = panicking s db ∧
    WriteGameGo.PostGame env f s db req = panicking s db := by
  have h := getUserFromBasicAuth_no_colon env payload auth hdec hcolon
  unfold ServerGo.PostGame WriteGameGo.PostGame
  rw [hreq, h]
  exact ⟨rfl, rfl⟩

set_option maxRecDepth 20000 in
/-- C16: bad credentials are meant to be answered with 401. On the code a header
whose credentials decode to `nocolon` makes `getUserFromBasicAuth` index
`authSplit[1]` on a one-element slice: the handler panics and never sets 401. -/
theorem C16_credentials_without_colon_panic :
    sampleEnvNoColon.decodeBase64 "bm9jb2xvbg==" = some "nocolon" ∧
    getUserFromBasicAuth sampleEnvNoColon "Basic bm9jb2xvbg==" = AuthResult.panic ∧
    (ServerGo.PostGame sampleEnvNoColon noFaults New Db.empty sampleRequestNoColon).panicked
      = true ∧
    (ServerGo.PostGame sampleEnvNoColon noFaults New Db.empty sampleRequestNoColon).status
      ≠ 401 ∧
    (WriteGameGo.PostGame sampleEnvNoColon noFaults New Db.empty sampleRequestNoColon).panicked
      = true := by
  decide

/-- C17: the result of `gamesMatch` does not depend on any timestamp. Replacing
the start and end times of both runs leaves the result unchanged; neither
time-window guard is satisfiable; and `gamesMatch a b` is true exactly when
quest name, difficulty, episode and server are equal, the GuildCards differ
and the `AllPlayers` lists are equal. -/
theorem C17_gamesMatch_ignores_timestamps :
    (∀ (a b : QuestRun) (s1 e1 s2 e2 : Int),
      gamesMatch { a with QuestStartTime := s1, QuestEndTime := e1 }
        { b with QuestStartTime := s2, QuestEndTime := e2 } = gamesMatch a b) ∧
    (∀ t u : Int,
      (timeAfter (timeAdd t (Second * -30)) u && timeBefore (timeAdd t (Second * 30)) u)
        = false) ∧
    (∀ a b : QuestRun, gamesMatch a b = true ↔
      a.QuestName = b.QuestName ∧ a.Difficulty = b.Difficulty ∧ a.Episode = b.Episode ∧
      a.Server = b.Server ∧ a.GuildCard ≠ b.GuildCard ∧ a.AllPlayers = b.AllPlayers) := by
  refine ⟨?_, window_guard_false, gamesMatch_iff⟩
  intro a b s1 e1 s2 e2
  rw [Bool.eq_iff_iff, gamesMatch_iff, gamesMatch_iff]

/-- With a separator `strings.SplitN(s, sep, 2)` has two elements. -/
theorem SplitN2_of_mem (s : String) (sep : Char) (h : sep ∈ s.data) :
    ∃ a b, SplitN2 s sep = [a, b] := by
  unfold SplitN2
  rcases hsp : s.toList.span (fun c => c != sep) with ⟨before, rest⟩
  cases rest with
  | nil =>
    exfalso
    rw [List.span_eq_take_drop] at hsp
    have hdrop : List.dropWhile (fun c => c != sep) s.toList = [] := (Prod.mk.inj hsp).2
    have hall := List.dropWhile_eq_nil_iff.1 hdrop sep h
    simp at hall
  | cons x after => exact ⟨_, _, rfl⟩

/-- The only headers on which `getUserFromBasicAuth` panics are those whose
credentials decode to a string without a colon. -/
theorem getUserFromBasicAuth_panic_only_without_colon (env : Env) (header : String)
    (h : getUserFromBasicAuth env header = AuthResult.panic) :
    HasPrefix header "Basic " = true ∧
    ∃ auth, env.decodeBase64 (TrimPrefix header "Basic ") = some auth ∧ ':' ∉ auth.data := by
  unfold getUserFromBasicAuth at h
  split_ifs at h with hcond
  simp only [Bool.and_eq_true] at hcond
  dsimp only at h
  refine ⟨hcond.2, ?_⟩
  cases hdec : env.decodeBase64 (TrimPrefix header "Basic ") with
  | none => rw [hdec] at h; simp at h
  | some auth =>
    refine ⟨auth, rfl, ?_⟩
    intro hmem
    obtain ⟨a, b, hab⟩ := SplitN2_of_mem auth ':' hmem
    rw [hdec] at h
    simp only [hab] at h
    exact absurd h (by simp)

/-- When `getUserFromBasicAuth` returns an error both versions of `PostGame` set
status 401 and leave the server and the tables as they were. -/
theorem PostGame_unauthorized_of_error (env : Env) (f : Faults) (s : Server) (db : Db)
    (req : Request) (h : getUserFromBasicAuth env req.authorization = AuthResult.error) :
    ServerGo.PostGame env f s db req = reply s db 401 false ∧
    WriteGameGo.PostGame env f s db req = reply s db 401 false := by
  unfold ServerGo.PostGame WriteGameGo.PostGame
  rw [h]
  exact ⟨rfl, rfl⟩

/-! ## The window, storage failures and validation failures (server.go) -/

/-- A call of `PostGame` of server.go that runs to its end comes from an
authenticated request and writes its submission, the body with the user as
GuildCard and the returned id, into the slot of the counter; a call that does
not run to its end has no submission and leaves the window as it was. -/
theorem ServerGo_PostGame_records (env : Env) (f : Faults) (s : Server) (db : Db)
    (req : Request) :
    ((ServerGo.PostGame env f s db req).completed = true →
      ∃ user body, authenticates env req user body = true ∧
        submissionServerGo env f s db req =
          some ((body.withGuildCard user).withId (ServerGo.PostGame env f s db req).body) ∧
        recordRecentGame s
            ((body.withGuildCard user).withId (ServerGo.PostGame env f s db req).body) =
          some (ServerGo.PostGame env f s db req).server) ∧
    ((ServerGo.PostGame env f s db req).completed = false →
      submissionServerGo env f s db req = none ∧
        (ServerGo.PostGame env f s db req).server = s) := by
  constructor
  · intro hdone
    rcases ServerGo_PostGame_cases env f s db req with h | ⟨user, body, d, ha, -, hp⟩
    · rw [h.2.2.2] at hdone; simp at hdone
    · obtain ⟨pass, password, h1, -, -, h4⟩ := (authenticates_iff env req user body).1 ha
      refine ⟨user, body, ha, ?_, ?_⟩
      · unfold submissionServerGo
        rw [if_pos hdone, h1, h4]
      · rw [hp] at hdone ⊢
        rcases ServerGo_ingest_cases env f s db user body d with
          ⟨-, h⟩ | ⟨-, -, h⟩ | ⟨-, s1, hrec, h⟩
        · rw [h] at hdone; simp [reply, Result.completed] at hdone
        · rw [h] at hdone; simp [panicking, Result.completed] at hdone
        · rw [h]; exact hrec
  · intro hnot
    constructor
    · unfold submissionServerGo
      rw [hnot]
      rfl
    · rcases ServerGo_PostGame_cases env f s db req with h | ⟨user, body, d, -, -, hp⟩
      · exact h.1
      · rw [hp] at hnot ⊢
        rcases ServerGo_ingest_cases env f s db user body d with
          ⟨-, h⟩ | ⟨-, -, h⟩ | ⟨-, s1, hrec, h⟩
        · rw [h]; rfl
        · rw [h]; rfl
        · rw [h] at hnot; simp [Result.completed] at hnot

/-- The window after a sequence of calls is the window after recording, in
order, the submissions of the calls that ran to their end. -/
theorem runServerGo_records (env : Env) (st : Server × Db) (reqs : List (Faults × Request)) :
    recordAll st.1 (submissionsServerGo env st reqs) = some (runServerGo env st reqs).1 := by
  induction reqs generalizing st with
  | nil => rfl
  | cons x xs ih =>
    obtain ⟨f, req⟩ := x
    simp only [submissionsServerGo, runServerGo]
    have hstep := ServerGo_PostGame_records env f st.1 st.2 req
    cases hdone : (ServerGo.PostGame env f st.1 st.2 req).completed with
    | true =>
      obtain ⟨user, body, -, hsub, hrec⟩ := hstep.1 hdone
      rw [hsub]
      simp only [Option.toList, List.singleton_append, recordAll, hrec]
      exact ih ((ServerGo.PostGame env f st.1 st.2 req).server,
        (ServerGo.PostGame env f st.1 st.2 req).db)
    | false =>
      obtain ⟨hsub, hsame⟩ := hstep.2 hdone
      rw [hsub]
      simp only [Option.toList, List.nil_append]
      conv_lhs => arg 1; rw [← hsame]
      exact ih ((ServerGo.PostGame env f st.1 st.2 req).server,
        (ServerGo.PostGame env f st.1 st.2 req).db)

/-- C10: the recent-submission window is a circular buffer of capacity 500. A call
of `PostGame` of server.go that runs to its end records its submission (the
body of the authenticated request with the user as GuildCard and the returned
id) in the slot of the counter, and any other call leaves the window as it
was. Starting from `New`, after any sequence of calls, with `k` submissions
recorded: the buffer has 500 slots, the counter is `k`, the slot index of the
next write is within bounds so that no write panics, and each of the last
`min k 500` submissions, of rank `i` counting from zero, sits in slot
`i mod 500`. -/
theorem C10_recent_window_circular :
    (∀ (env : Env) (f : Faults) (s : Server) (db : Db) (req : Request),
      ((ServerGo.PostGame env f s db req).completed = true →
        ∃ user body, authenticates env req user body = true ∧
          submissionServerGo env f s db req =
            some ((body.withGuildCard user).withId (ServerGo.PostGame env f s db req).body) ∧
          recordRecentGame s
              ((body.withGuildCard user).withId (ServerGo.PostGame env f s db req).body) =
            some (ServerGo.PostGame env f s db req).server) ∧
      ((ServerGo.PostGame env f s db req).completed = false →
        submissionServerGo env f s db req = none ∧
          (ServerGo.PostGame env f s db req).server = s)) ∧
    (∀ (env : Env) (db : Db) (reqs : List (Faults × Request)),
      (runServerGo env (New, db) reqs).1.recentGames.length = 500 ∧
      (runServerGo env (New, db) reqs).1.recentGamesSize = 500 ∧
      (runServerGo env (New, db) reqs).1.recentGamesCount =
        (submissionsServerGo env (New, db) reqs).length ∧
      (runServerGo env (New, db) reqs).1.recentGamesCount %
          (runServerGo env (New, db) reqs).1.recentGamesSize <
        (runServerGo env (New, db) reqs).1.recentGames.length ∧
      (∀ q : QuestRun, (recordRecentGame (runServerGo env (New, db) reqs).1 q).isSome = true) ∧
      ∀ i : Nat, i < (submissionsServerGo env (New, db) reqs).length →
        (submissionsServerGo env (New, db) reqs).length ≤ i + 500 →
        (runServerGo env (New, db) reqs).1.recentGames[i % 500]? =
          (submissionsServerGo env (New, db) reqs)[i]?) := by
  refine ⟨ServerGo_PostGame_records, ?_⟩
  intro env db reqs
  obtain ⟨s, h1, h2, h3, h4, h5⟩ := recordAll_New (submissionsServerGo env (New, db) reqs)
  have hrun := runServerGo_records env (New, db) reqs
  rw [h1] at hrun
  simp only [Option.some.injEq] at hrun
  rw [← hrun]
  have hslot : s.recentGamesCount % s.recentGamesSize < s.recentGames.length := by
    rw [h2, h3]; omega
  refine ⟨h2, h3, h4, hslot, ?_, h5⟩
  intro q
  unfold recordRecentGame
  rw [if_neg (by rw [h3]; decide)]
  simp only [hslot, if_true, Option.isSome_some]

set_option maxRecDepth 20000 in
/-- Witness for C10: after the requests of `alice` and `bob` the submission of
`bob`, with id 2, sits in slot 1. -/
theorem C10_recent_window_circular_witness :
    (runServerGo sampleEnv (New, Db.empty)
        [(noFaults, sampleRequestA), (noFaults, sampleRequestB 0 "1m20s")]).1.recentGames[1]? =
      some (((sampleRunB 0 "1m20s").withGuildCard "bob").withId "2") :=
  ((C10_recent_window_circular.2 sampleEnv Db.empty
      [(noFaults, sampleRequestA), (noFaults, sampleRequestB 0 "1m20s")]).2.2.2.2.2
    1 (by decide) (by decide)).trans (by decide)

/-- When everything up to the put in `games_by_id` succeeds and the by-month
write fails, `WriteGameById` returns the error with the counter incremented
and the canonical row in place. -/
theorem WriteGameById_recent_write_fails (env : Env) (f : Faults) (q : QuestRun) (db : Db)
    (d : Int) (gz : List Nat)
    (hinc : f.incrementGameId = false)
    (hlo : -(2 ^ 63) ≤ db.gameCount + 1) (hhi : db.gameCount + 1 < 2 ^ 63)
    (hgz : compressGame env q = some gz)
    (hd : env.parseDuration q.QuestDuration = some d)
    (hput : f.putGameById = false) (hmonth : f.putRecentGame = true) :
    WriteGameById env f q db =
      ({ db with
          gameCount := db.gameCount + 1,
          gamesById := putItem gamesByIdKey
            { Id := toString (db.gameCount + 1), Player := q.GuildCard,
              Players := playersMap q.AllPlayers, Category := getCategoryFromQuest q,
              Quest := q.QuestName, QuestAndCategory := none, Time := d,
              Timestamp := q.QuestStartTime, Episode := q.Episode,
              GameGzip := some gz, Month := none } db.gamesById },
        toString (db.gameCount + 1), true) := by
  have hrange : ¬ (db.gameCount + 1 < -(2 ^ 63) ∨ 2 ^ 63 ≤ db.gameCount + 1) := by omega
  unfold WriteGameById incrementAndGetGameId writeRecentGame
  simp only [hinc, Bool.false_eq_true, if_false, hrange, hgz, hd, hput, hmonth, if_true]

/-- C8, as amended: when `PostGame` of server.go answers 500, the window and
every table but `games_by_id` and the counter are as before, and `games_by_id`
is as before too unless the failing call is the by-month write. When the
failing call is the by-month write after a successful put, `PostGame` answers
500 and the canonical row of the submission, put under the newly minted id,
remains in `games_by_id`. -/
theorem C8_storage_failure_state :
    (∀ (env : Env) (f : Faults) (s : Server) (db : Db) (req : Request),
      (ServerGo.PostGame env f s db req).status = 500 →
      (ServerGo.PostGame env f s db req).server = s ∧
      (ServerGo.PostGame env f s db req).db.recentGamesByMonth = db.recentGamesByMonth ∧
      (ServerGo.PostGame env f s db req).db.gamesByQuest = db.gamesByQuest ∧
      (ServerGo.PostGame env f s db req).db.questRecords = db.questRecords ∧
      (ServerGo.PostGame env f s db req).db.recentGamesByPlayer = db.recentGamesByPlayer ∧
      (ServerGo.PostGame env f s db req).db.playerPb = db.playerPb ∧
      ((ServerGo.PostGame env f s db req).db.gamesById = db.gamesById ∨
        (f.putRecentGame = true ∧
          ∃ game : Game, game.Id = toString (db.gameCount + 1) ∧
            (ServerGo.PostGame env f s db req).db.gamesById =
              putItem gamesByIdKey game db.gamesById)) ∧
      (f.putRecentGame = false →
        (ServerGo.PostGame env f s db req).db.gamesById = db.gamesById)) ∧
    (∀ (env : Env) (f : Faults) (s : Server) (db : Db) (req : Request) (user : String)
        (body : QuestRun) (d : Int) (gz : List Nat),
      authenticates env req user body = true →
      env.parseDuration body.QuestDuration = some d →
      f.incrementGameId = false →
      -(2 ^ 63) ≤ db.gameCount + 1 → db.gameCount + 1 < 2 ^ 63 →
      compressGame env (body.withGuildCard user) = some gz →
      f.putGameById = false → f.putRecentGame = true →
      (ServerGo.PostGame env f s db req).status = 500 ∧
      answer (ServerGo.PostGame env f s db req) = some { status := 500, body := none } ∧
      (ServerGo.PostGame env f s db req).db.gameCount = db.gameCount + 1 ∧
      (ServerGo.PostGame env f s db req).db.gamesById =
        putItem gamesByIdKey
          { Id := toString (db.gameCount + 1), Player := user,
            Players := playersMap body.AllPlayers, Category := getCategoryFromQuest body,
            Quest := body.QuestName, QuestAndCategory := none, Time := d,
            Timestamp := body.QuestStartTime, Episode := body.Episode,
            GameGzip := some gz, Month := none } db.gamesById ∧
      ({ Id := toString (db.gameCount + 1), Player := user,
          Players := playersMap body.AllPlayers, Category := getCategoryFromQuest body,
          Quest := body.QuestName, QuestAndCategory := none, Time := d,
          Timestamp := body.QuestStartTime, Episode := body.Episode,
          GameGzip := some gz, Month := none } : Game) ∈
        (ServerGo.PostGame env f s db req).db.gamesById) := by
  constructor
  · intro env f s db req h500
    rcases ServerGo_PostGame_cases env f s db req with h | ⟨user, body, d, -, -, hp⟩
    · exact absurd h500 h.2.2.1
    · rw [hp] at h500 ⊢
      obtain ⟨h1, h2, h3, h4, -⟩ := WriteGameById_frame env f (body.withGuildCard user) db
      rcases ServerGo_ingest_cases env f s db user body d with
        ⟨herr, h⟩ | ⟨-, -, h⟩ | ⟨-, s1, -, h⟩
      · rw [h]
        simp only [reply]
        rcases WriteGameById_spec env f (body.withGuildCard user) db with
          ⟨-, hid, hmonth⟩ | ⟨-, -, -, -, hres, ⟨game, hgid, -, hput⟩, hmonth⟩
        · exact ⟨trivial, hmonth, h1, h2, h3, h4, Or.inl hid, fun _ => hid⟩
        · rw [herr] at hres
          refine ⟨trivial, hmonth hres.symm, h1, h2, h3, h4,
            Or.inr ⟨hres.symm, game, hgid, hput⟩, ?_⟩
          intro hno
          rw [hno] at hres
          simp at hres
      · rw [h] at h500; simp [panicking] at h500
      · rw [h] at h500; simp at h500
  · intro env f s db req user body d gz ha hd hinc hlo hhi hgz hput hmonth
    have hP := ServerGo_PostGame_of_authenticates env f s db req user body ha
    rw [hd] at hP
    simp only at hP
    have hw := WriteGameById_recent_write_fails env f (body.withGuildCard user) db d gz
      hinc hlo hhi hgz hd hput hmonth
    rw [hP]
    unfold ServerGo.ingest
    simp only [hw]
    refine ⟨rfl, rfl, rfl, rfl, ?_⟩
    exact List.mem_cons_self _ _

set_option maxRecDepth 20000 in
/-- Witness for C8 as amended: the by-month write fails on `alice`'s request. -/
theorem C8_storage_failure_state_witness :
    (ServerGo.PostGame sampleEnv { noFaults with putRecentGame := true } New Db.empty
      sampleRequestA).server = New ∧
    (ServerGo.PostGame sampleEnv { noFaults with putRecentGame := true } New Db.empty
      sampleRequestA).db.recentGamesByMonth = Db.empty.recentGamesByMonth ∧
    (ServerGo.PostGame sampleEnv { noFaults with putRecentGame := true } New Db.empty
      sampleRequestA).status = 500 ∧
    (ServerGo.PostGame sampleEnv { noFaults with putRecentGame := true } New Db.empty
      sampleRequestA).db.gameCount = Db.empty.gameCount + 1 :=
  ⟨(C8_storage_failure_state.1 sampleEnv { noFaults with putRecentGame := true } New Db.empty
      sampleRequestA (by decide)).1,
    (C8_storage_failure_state.1 sampleEnv { noFaults with putRecentGame := true } New Db.empty
      sampleRequestA (by decide)).2.1,
    (C8_storage_failure_state.2 sampleEnv { noFaults with putRecentGame := true } New Db.empty
      sampleRequestA "alice" sampleRunA (90 * Second)
      (31 :: 139 :: sampleRunA.QuestName.toList.map Char.toNat)
      (by decide) (by decide) (by decide) (by decide) (by decide) (by decide) (by decide)
      (by decide)).1,
    (C8_storage_failure_state.2 sampleEnv { noFaults with putRecentGame := true } New Db.empty
      sampleRequestA "alice" sampleRunA (90 * Second)
      (31 :: 139 :: sampleRunA.QuestName.toList.map Char.toNat)
      (by decide) (by decide) (by decide) (by decide) (by decide) (by decide) (by decide)
      (by decide)).2.2.1⟩

/-- An authenticated submission whose duration string does not parse: the
handler of server.go sets status 400 and returns the parse error with nothing
written, and the app answers the returned error with 500. -/
theorem ServerGo_PostGame_unparsable_duration (env : Env) (f : Faults) (s : Server) (db : Db)
    (req : Request) (user : String) (body : QuestRun)
    (ha : authenticates env req user body = true)
    (hd : env.parseDuration body.QuestDuration = none) :
    (ServerGo.PostGame env f s db req).status = 400 ∧
    (ServerGo.PostGame env f s db req).err = true ∧
    (ServerGo.PostGame env f s db req).panicked = false ∧
    (ServerGo.PostGame env f s db req).body = "" ∧
    (ServerGo.PostGame env f s db req).server = s ∧
    (ServerGo.PostGame env f s db req).db = db ∧
    answer (ServerGo.PostGame env f s db req) = some { status := 500, body := none } := by
  rw [ServerGo_PostGame_of_authenticates env f s db req user body ha, hd]
  exact ⟨rfl, rfl, rfl, rfl, rfl, rfl, rfl⟩

set_option maxRecDepth 20000 in
/-- C9: a submission whose duration string does not parse is meant to be answered
with 400. On the code the handler sets status 400 and then returns the parse
error, which the app answers with 500 and the text of the error. Nothing is
written: the window and the tables are as before. -/
theorem C9_unparsable_duration_answered_500 :
    authenticates sampleEnv sampleRequestBad "alice"
      { sampleRunA with QuestDuration := "not-a-duration" } = true ∧
    sampleEnv.parseDuration "not-a-duration" = none ∧
    (ServerGo.PostGame sampleEnv noFaults New Db.empty sampleRequestBad).status = 400 ∧
    (ServerGo.PostGame sampleEnv noFaults New Db.empty sampleRequestBad).err = true ∧
    answer (ServerGo.PostGame sampleEnv noFaults New Db.empty sampleRequestBad) =
      some { status := 500, body := none } ∧
    (ServerGo.PostGame sampleEnv noFaults New Db.empty sampleRequestBad).server = New ∧
    (ServerGo.PostGame sampleEnv noFaults New Db.empty sampleRequestBad).db = Db.empty := by
  decide

end PsoStats
